import Mathlib

/-!
# rancher/vm: IP discovery controller and workload descriptor builder

A shallow embedding of `pkg/controller/ip/ip_controller.go` and
`pkg/controller/vm/util.go`, followed by theorems about the embedded code.

Conventions of the embedding.

* A Go `map[string]T` is an association list read through `get`; `set`
  overwrites the entry of a key in place or appends a new one. Two maps are
  compared through their lookups, the way `reflect.DeepEqual` compares maps.
  A map field that can be nil is an `Option`, `none` for the nil map.
* Calls into the API server are recorded, not performed: a function that issues
  writes returns the writes it issued.
* Pseudo-random draws are explicit arguments.
* A step that would panic in Go (index out of range, write into a nil map,
  nil dereference) returns `none`.
-/

namespace RancherVM

/-! ## Strings -/

/-- Go `strings.HasPrefix s p`. -/
def hasPrefix (s p : String) : Bool :=
  p.data.isPrefixOf s.data

/-- Go `unicode.IsSpace`: the Latin-1 spaces and the code points with the
Unicode White_Space property. -/
def isSpace (c : Char) : Bool :=
  let n := c.toNat
  (9 ≤ n ∧ n ≤ 13) ∨ n = 32 ∨ n = 133 ∨ n = 160 ∨ n = 5760 ∨
    (8192 ≤ n ∧ n ≤ 8202) ∨ n = 8232 ∨ n = 8233 ∨ n = 8239 ∨ n = 8287 ∨ n = 12288

/-- Worker of `fields`: `cur` is the field being read, last character first. -/
def fieldsAux : List Char → List Char → List String
  | [], cur => if cur.isEmpty then [] else [String.mk cur.reverse]
  | c :: cs, cur =>
    if isSpace c then
      if cur.isEmpty then fieldsAux cs [] else String.mk cur.reverse :: fieldsAux cs []
    else fieldsAux cs (c :: cur)

/-- Go `strings.Fields`: the maximal runs of non-space characters. -/
def fields (s : String) : List String :=
  fieldsAux s.data []

/-- Go `bufio.ScanLines` drops one trailing carriage return of a line; the
argument is the line with its last character first. -/
def dropCR : List Char → List Char
  | '\r' :: cs => cs
  | cs => cs

/-- Worker of `rawLines`: `cur` is the line being read, last character first. -/
def rawLinesAux : List Char → List Char → List String
  | [], cur => if cur.isEmpty then [] else [String.mk cur.reverse]
  | c :: cs, cur =>
    if c = '\n' then String.mk cur.reverse :: rawLinesAux cs []
    else rawLinesAux cs (c :: cur)

/-- The lines of a text as `bufio.ScanLines` cuts them, before the carriage
return is dropped: the text is cut at every newline, and an empty rest after
the last newline is no line. -/
def rawLines (text : String) : List String :=
  rawLinesAux text.data []

/-- The number of bytes of a character in UTF-8. -/
def utf8Bytes (c : Char) : Nat :=
  if c.toNat < 128 then 1 else if c.toNat < 2048 then 2 else if c.toNat < 65536 then 3 else 4

/-- The number of bytes of a string in UTF-8. -/
def utf8Len (s : String) : Nat :=
  (s.data.map utf8Bytes).sum

/-- The constant `bufio.MaxScanTokenSize`, the size the scanner's buffer grows
to: `64 * 1024`. -/
def maxScanTokenSize : Nat := 65536

/-- The token `bufio.ScanLines` returns for a line: the line without one
trailing carriage return. -/
def scanToken (line : String) : String :=
  String.mk (dropCR line.data.reverse).reverse

/-- The lines a `bufio.Scanner` with the default split function and the default
buffer yields for a text. A line is yielded while it fits the buffer with room
for its newline, that is while it is shorter than `maxScanTokenSize` bytes; at
the first line that is not, `Scan` fails with `ErrTooLong` and returns false, so
neither that line nor any later one is yielded (the caller never reads
`Err`). -/
def scanLines (text : String) : List String :=
  ((rawLines text).takeWhile (fun line => decide (utf8Len line < maxScanTokenSize))).map
    scanToken

/-! ## Go maps with string keys -/

/-- A Go `map[string]β`. -/
abbrev GoMap (β : Type) := List (String × β)

namespace GoMap

/-- The read `m[k]` in its two-valued form `v, ok := m[k]`. -/
def get {β : Type} : GoMap β → String → Option β
  | [], _ => none
  | (k', v) :: m, k => if k' = k then some v else get m k

/-- The write `m[k] = v`. -/
def set {β : Type} : GoMap β → String → β → GoMap β
  | [], k, v => [(k, v)]
  | (k', v') :: m, k, v => if k' = k then (k, v) :: m else (k', v') :: set m k v

/-- The keys in the map. -/
def keys {β : Type} (m : GoMap β) : List String :=
  m.map Prod.fst

/-- Go `reflect.DeepEqual` on two maps whose values are compared with `==`:
every key of either map has the same reading in both. -/
def deepEqual {β : Type} [DecidableEq β] (a b : GoMap β) : Bool :=
  (keys a ++ keys b).all (fun k => decide (get a k = get b k))

end GoMap

/-- Go `reflect.DeepEqual` on two map values that may be nil: both are nil, or
both are non-nil and equal as maps. A nil map and an empty non-nil map are not
deeply equal. -/
def deepEqualMap {β : Type} [DecidableEq β] : Option (GoMap β) → Option (GoMap β) → Bool
  | none, none => true
  | some a, some b => GoMap.deepEqual a b
  | _, _ => false

/-! ## API types -/

/-- The `v1alpha1.ARPEntry` fields written by the scanner. -/
structure ARPEntry where
  IP : String
  HWType : String
  Flags : String
  HWAddress : String
  Mask : String
  Device : String
  deriving DecidableEq, Repr

/-- The `v1alpha1.ARPTable` record: type meta, object name and `Spec.Table`,
`none` for a nil map. -/
structure ARPTable where
  APIVersion : String
  Kind : String
  Name : String
  Table : Option (GoMap ARPEntry)
  deriving DecidableEq, Repr

/-- The variable `arpMap := arpTable.Spec.Table` of `updateVMs`, which is only
read: a nil map reads as the empty map. -/
def ARPTable.arpMap (arpTable : ARPTable) : GoMap ARPEntry :=
  arpTable.Table.getD []

/-- The `v1alpha1.VirtualMachine` spec fields the controllers read. -/
structure VirtualMachineSpec where
  Cpus : Int
  MemoryMB : Int
  MachineImage : String
  KvmArgs : String
  PublicKeys : List String
  NodeName : String
  UseHugePages : Bool
  VmImagePvcName : String
  VmVolumesPvcName : String
  ImageVMTools : String
  deriving DecidableEq, Repr

/-- The `v1alpha1.VirtualMachine` status: instance id, MAC and IP. -/
structure VirtualMachineStatus where
  ID : String
  MAC : String
  IP : String
  deriving DecidableEq, Repr

/-- The `v1alpha1.VirtualMachine` object. -/
structure VirtualMachine where
  Name : String
  Spec : VirtualMachineSpec
  Status : VirtualMachineStatus
  deriving DecidableEq, Repr

/-! ## `ip_controller.go` -/

/-- The method `updateVMStatus`: the update is sent when the two statuses differ.
The result is the list of objects sent. -/
def updateVMStatus (current updated : VirtualMachine) : List VirtualMachine :=
  if current.Status ≠ updated.Status then [updated] else []

/-- The loop of `updateVMs` over the listed VMs; the result is the sequence of
objects submitted to `Update`, in order. -/
def updateVMsLoop (arpMap : GoMap ARPEntry) : List VirtualMachine → List VirtualMachine
  | [] => []
  | vm :: vms =>
    if vm.Status.MAC = "" then updateVMsLoop arpMap vms
    else if vm.Status.IP = "" then
      match arpMap.get vm.Status.MAC with
      | some entry =>
        let vm2 := { vm with Status := { vm.Status with IP := entry.IP } }
        updateVMStatus vm vm2 ++ updateVMsLoop arpMap vms
      | none => updateVMsLoop arpMap vms
    else
      match arpMap.get vm.Status.MAC with
      | some entry =>
        if entry.IP ≠ vm.Status.IP then
          let vm2 := { vm with Status := { vm.Status with IP := entry.IP } }
          updateVMStatus vm vm2 ++ updateVMsLoop arpMap vms
        else updateVMsLoop arpMap vms
      | none => updateVMsLoop arpMap vms

/-- The method `updateVMs`. `listed` is the outcome of `vmLister.List`: `none`
when it fails (the error is returned and nothing is written), otherwise the
VMs. The result is `none` for a returned error and otherwise the writes
issued. -/
def updateVMs (listed : Option (List VirtualMachine)) (arpTable : ARPTable) :
    Option (List VirtualMachine) :=
  match listed with
  | none => none
  | some vms => some (updateVMsLoop arpTable.arpMap vms)

/-- The store after a sequence of `Update` calls: each call replaces the object
of the same name. -/
def applyWrites (writes : List VirtualMachine) (vms : List VirtualMachine) :
    List VirtualMachine :=
  writes.foldl (fun store w => store.map (fun vm => if vm.Name = w.Name then w else vm)) vms

/-- The outcome of `arpLister.Get`. -/
inductive GetResult where
  | found (curTable : ARPTable)
  | notFound
  | otherError
  deriving DecidableEq, Repr

/-- The write `updateARPTable` issues, if any. -/
inductive ARPWrite where
  | create (newTable : ARPTable)
  | update (newTable : ARPTable)
  | noWrite
  deriving DecidableEq, Repr

/-- The body of the scan loop of `updateARPTable` for one line, on the map of
`newTable`, nil or not. The result is `none` when the assignment
`newTable.Spec.Table[f[3]] = ...` panics because the map is nil, and otherwise
the map after the line. -/
def scanLineAt (table : Option (GoMap ARPEntry)) (l : String) :
    Option (Option (GoMap ARPEntry)) :=
  if hasPrefix l "IP" then some table
  else
    match fields l with
    | [f0, f1, f2, f3, f4, f5] =>
      if !hasPrefix f3 "06:fe" then some table
      else
        match table with
        | none => none
        | some m => some (some (m.set f3
            { IP := f0, HWType := f1, Flags := f2, HWAddress := f3, Mask := f4, Device := f5 }))
    | _ => some table

/-- The scan loop of `updateARPTable` over the lines the scanner yields, on the
map of `newTable`, nil or not; `none` when a line panics. -/
def scanLoopAt (table : Option (GoMap ARPEntry)) : List String →
    Option (Option (GoMap ARPEntry))
  | [] => some table
  | l :: lines =>
    match scanLineAt table l with
    | none => none
    | some table => scanLoopAt table lines

/-- The body of the scan loop for one line on a map that is not nil, where the
assignment cannot panic (`scanLineAt` on `some table`). -/
def scanLine (table : GoMap ARPEntry) (l : String) : GoMap ARPEntry :=
  if hasPrefix l "IP" then table
  else
    match fields l with
    | [f0, f1, f2, f3, f4, f5] =>
      if !hasPrefix f3 "06:fe" then table
      else table.set f3
        { IP := f0, HWType := f1, Flags := f2, HWAddress := f3, Mask := f4, Device := f5 }
    | _ => table

/-- The scan loop over the lines the scanner yields on a map that is not nil
(`scanLoopAt` on `some table`). -/
def scanLoop (table : GoMap ARPEntry) (lines : List String) : GoMap ARPEntry :=
  lines.foldl scanLine table

/-- The part of `updateARPTable` after the neighbor cache is opened, given the
lines the scanner yields. `curTable` is the record read from the lister, `none`
when the read was answered not-found (`curTable == nil`). The result is `none`
when the scan loop panics, and otherwise the write issued. -/
def updateARPTableLines (nodeName : String) (curTable : Option ARPTable)
    (lines : List String) : Option ARPWrite :=
  let newTable : ARPTable :=
    match curTable with
    | some cur => cur
    | none =>
      { APIVersion := "vm.rancher.com/v1alpha1", Kind := "ARPTable", Name := nodeName,
        Table := some [] }
  match scanLoopAt newTable.Table lines with
  | none => none
  | some table =>
    let newTable := { newTable with Table := table }
    match curTable with
    | none => some (ARPWrite.create newTable)
    | some cur =>
      if !deepEqualMap cur.Table newTable.Table then some (ARPWrite.update newTable)
      else some ARPWrite.noWrite

/-- The method `updateARPTable`. `got` is the outcome of `arpLister.Get` for
the node and `arp` the content of `/proc/net/arp`, `none` when it cannot be
opened. The result is `none` when the method panics, and otherwise the write
issued. -/
def updateARPTable (nodeName : String) (got : GetResult) (arp : Option String) :
    Option ARPWrite :=
  match got with
  | GetResult.otherError => some ARPWrite.noWrite
  | GetResult.notFound =>
    match arp with
    | none => some ARPWrite.noWrite
    | some text => updateARPTableLines nodeName none (scanLines text)
  | GetResult.found curTable =>
    match arp with
    | none => some ARPWrite.noWrite
    | some text => updateARPTableLines nodeName (some curTable) (scanLines text)

/-- The stored record after a run: a created or updated record becomes the
stored one; no write, and a run that panicked, leave the store as it was. -/
def storeAfter (stored : Option ARPTable) : Option ARPWrite → Option ARPTable
  | some (ARPWrite.create t) => some t
  | some (ARPWrite.update t) => some t
  | some ARPWrite.noWrite => stored
  | none => stored

/-- The outcome of a successful `arpLister.Get` on a store. -/
def getStored : Option ARPTable → GetResult
  | some t => GetResult.found t
  | none => GetResult.notFound

/-- The write one VM gets in a pass of `updateVMs`, as a single decision: none
without a MAC, none without an entry under the MAC, none when the entry's IP is
the VM's IP, and otherwise the VM with the entry's IP. -/
def writeOf (arpMap : GoMap ARPEntry) (vm : VirtualMachine) : Option VirtualMachine :=
  if vm.Status.MAC = "" then none
  else
    match arpMap.get vm.Status.MAC with
    | none => none
    | some entry =>
      if entry.IP = vm.Status.IP then none
      else some { vm with Status := { vm.Status with IP := entry.IP } }

/-- The entry a line contributes to the scan, with its key: none for a header
line, for a line that does not have six fields and for a hardware address
outside the managed prefix. -/
def lineEntry (l : String) : Option (String × ARPEntry) :=
  if hasPrefix l "IP" then none
  else
    match fields l with
    | [f0, f1, f2, f3, f4, f5] =>
      if hasPrefix f3 "06:fe" then
        some (f3, { IP := f0, HWType := f1, Flags := f2, HWAddress := f3, Mask := f4, Device := f5 })
      else none
    | _ => none

/-- One tick of the reconciler against a store: the read fails or answers from
the store, and the write issued, if any, becomes the stored record. -/
def reconcileOnce (nodeName : String) (stored : Option ARPTable) (readFails : Bool)
    (arp : Option String) : Option ARPTable :=
  storeAfter stored
    (updateARPTable nodeName (if readFails then GetResult.otherError else getStored stored) arp)

/-- A sequence of ticks, each given whether its read fails and what its
neighbor cache holds (`none` when it cannot be opened). -/
def reconcileRuns (nodeName : String) (stored : Option ARPTable)
    (ticks : List (Bool × Option String)) : Option ARPTable :=
  ticks.foldl (fun st tick => reconcileOnce nodeName st tick.1 tick.2) stored

/-- Every entry of the table sits under a managed hardware address, which is
also the entry's own. -/
def Managed (table : GoMap ARPEntry) : Prop :=
  ∀ p ∈ table, hasPrefix p.1 "06:fe" = true ∧ p.2.HWAddress = p.1

/-- The memory holding `VirtualMachine` objects; a pointer is an index into
it. -/
abbrev VMHeap := List VirtualMachine

/-- The call `p.DeepCopy()`: a new object with the content of the one `p` points
to, and the pointer to it. -/
def deepCopyAt (heap : VMHeap) (p : Nat) : Option (VMHeap × Nat) :=
  match heap[p]? with
  | some vm => some (heap ++ [vm], heap.length)
  | none => none

/-- The assignment `p.Status.IP = ip`. -/
def setStatusIPAt (heap : VMHeap) (p : Nat) (ip : String) : Option VMHeap :=
  match heap[p]? with
  | some vm => some (heap.set p { vm with Status := { vm.Status with IP := ip } })
  | none => none

/-- The method `updateVMStatus` on pointers: the object `updated` points to is
sent when its status differs from that of the object `current` points to. -/
def updateVMStatusAt (heap : VMHeap) (current updated : Nat) : Option (List VirtualMachine) :=
  match heap[current]?, heap[updated]? with
  | some c, some u => some (if c.Status ≠ u.Status then [u] else [])
  | _, _ => none

/-- The loop of `updateVMs` over the pointers the lister returned: the memory
after the pass and the objects submitted to `Update`; `none` on a nil
dereference. -/
def updateVMsAt (arpMap : GoMap ARPEntry) : VMHeap → List Nat →
    Option (VMHeap × List VirtualMachine)
  | heap, [] => some (heap, [])
  | heap, p :: ps =>
    match heap[p]? with
    | none => none
    | some vm =>
      if vm.Status.MAC = "" then updateVMsAt arpMap heap ps
      else if vm.Status.IP = "" then
        match arpMap.get vm.Status.MAC with
        | some entry =>
          match deepCopyAt heap p with
          | none => none
          | some (heap, vm2) =>
            match setStatusIPAt heap vm2 entry.IP with
            | none => none
            | some heap =>
              match updateVMStatusAt heap p vm2 with
              | none => none
              | some sent =>
                match updateVMsAt arpMap heap ps with
                | none => none
                | some (heap, rest) => some (heap, sent ++ rest)
        | none => updateVMsAt arpMap heap ps
      else
        match arpMap.get vm.Status.MAC with
        | some entry =>
          if entry.IP ≠ vm.Status.IP then
            match deepCopyAt heap p with
            | none => none
            | some (heap, vm2) =>
              match setStatusIPAt heap vm2 entry.IP with
              | none => none
              | some heap =>
                match updateVMStatusAt heap p vm2 with
                | none => none
                | some sent =>
                  match updateVMsAt arpMap heap ps with
                  | none => none
                  | some (heap, rest) => some (heap, sent ++ rest)
          else updateVMsAt arpMap heap ps
        | none => updateVMsAt arpMap heap ps

/-! ## Workload descriptor types

The part of `corev1.Pod` that `util.go` fills in. A field the source never sets
is left out; a pointer or map field that can be nil is an `Option`. -/

/-- The `corev1.EnvVar` fields: name, literal value and, for a variable read
from the pod's own fields, the field path of its `ValueFrom.FieldRef`. -/
structure EnvVar where
  Name : String
  Value : String
  ValueFrom : Option String
  deriving DecidableEq, Repr

/-- Modelled from the spec: `common.MakeEnvVar` is not among the sources. The
spec has values "embedded as indexed environment variables" and the port
"recorded ... as an environment variable": the helper builds the variable of
the given name carrying the given value and source. -/
def MakeEnvVar (name value : String) (valueFrom : Option String) : EnvVar :=
  { Name := name, Value := value, ValueFrom := valueFrom }

/-- Modelled from the spec: `common.MakeEnvVarFieldPath` is not among the
sources; it builds the variable of the given name read from the given field
path of the pod. -/
def MakeEnvVarFieldPath (name fieldPath : String) : EnvVar :=
  { Name := name, Value := "", ValueFrom := some fieldPath }

/-- A volume mount, as the arguments of the call `common.MakeVolumeMount name
path subPath readOnly` that builds it. -/
structure VolumeMount where
  Name : String
  MountPath : String
  SubPath : String
  ReadOnly : Bool
  deriving DecidableEq, Repr

/-- A volume, as the call of the `pkg/common` helper that builds it. The helpers
are not among the sources and nothing below depends on what they build. -/
inductive Volume where
  | MakeVolHostPath (name path : String)
  | MakeHostStateVol (vmName volName : String)
  | MakePvcVol (name claimName : String)
  | MakeVolEmptyDir (name : String)
  | MakeVolEmptyDirHugePages (name : String)
  | MakeVolFieldPath (name path fieldPath : String)
  deriving DecidableEq, Repr

/-- The `corev1.Probe` fields set by `CreateConsoleProbe`. -/
structure Probe where
  ExecCommand : List String
  InitialDelaySeconds : Int
  TimeoutSeconds : Int
  PeriodSeconds : Int
  SuccessThreshold : Int
  FailureThreshold : Int
  deriving DecidableEq, Repr

/-- A `resource.Quantity` made by `resource.NewQuantity value format`. -/
structure Quantity where
  Value : Int
  Format : String
  deriving DecidableEq, Repr

/-- The `corev1.ResourceRequirements`; `Limits` is `none` for the nil map of
the zero value. -/
structure ResourceRequirements where
  Limits : Option (GoMap Quantity)
  deriving DecidableEq, Repr

/-- The `corev1.Container` fields the builders set. `SecurityContext` holds
the value of `Privileged` when a security context is given. -/
structure Container where
  Name : String
  Image : String
  ImagePullPolicy : String
  Command : List String
  Env : List EnvVar
  VolumeMounts : List VolumeMount
  LivenessProbe : Option Probe
  ReadinessProbe : Option Probe
  SecurityContext : Option Bool
  Resources : ResourceRequirements
  deriving DecidableEq, Repr

/-- The `corev1.NodeSelectorRequirement`. -/
structure NodeSelectorRequirement where
  Key : String
  Operator : String
  Values : List String
  deriving DecidableEq, Repr

/-- The `corev1.NodeSelectorTerm`. -/
structure NodeSelectorTerm where
  MatchExpressions : List NodeSelectorRequirement
  deriving DecidableEq, Repr

/-- The `corev1.NodeAffinity`: the node selector terms of its
`RequiredDuringSchedulingIgnoredDuringExecution`, `none` when that is nil. -/
structure NodeAffinity where
  Required : Option (List NodeSelectorTerm)
  deriving DecidableEq, Repr

/-- The `corev1.PodAffinityTerm`: the match labels of its label selector and
its topology key. -/
structure PodAffinityTerm where
  MatchLabels : GoMap String
  TopologyKey : String
  deriving DecidableEq, Repr

/-- The `corev1.Affinity`. `PodAffinity` and `PodAntiAffinity` hold the terms
of their `RequiredDuringSchedulingIgnoredDuringExecution`; `none` is a nil
pointer. -/
structure Affinity where
  NodeAffinity : Option NodeAffinity
  PodAffinity : Option (List PodAffinityTerm)
  PodAntiAffinity : Option (List PodAffinityTerm)
  deriving DecidableEq, Repr

/-- The `corev1.PodSpec` fields the builders set. -/
structure PodSpec where
  Volumes : List Volume
  InitContainers : List Container
  Containers : List Container
  HostNetwork : Bool
  ImagePullSecrets : List String
  Affinity : Option Affinity
  TerminationGracePeriodSeconds : Option Int
  deriving DecidableEq, Repr

/-- The `corev1.Pod`: name, labels and annotations of its object meta (a nil
map is `none`) and its spec. -/
structure Pod where
  Name : String
  Labels : Option (GoMap String)
  Annotations : Option (GoMap String)
  Spec : PodSpec
  deriving DecidableEq, Repr

/-- A `v1alpha1.Credential`: name and `Spec.PublicKey`. -/
structure Credential where
  Name : String
  PublicKey : String
  deriving DecidableEq, Repr

/-- The package-level values `util.go` reads: the constants and flags of
`pkg/common` and `v1alpha1`, which are not among the sources, and the variable
`privileged` of the package. -/
structure Globals where
  LabelApp : String
  LabelRoleVM : String
  LabelRoleNoVNC : String
  LabelNodeHostname : String
  NameDelimiter : String
  HostStateBaseDir : String
  ImageVMTools : String
  ImageNoVNC : String
  SettingNameRegistrySecret : String
  privileged : Bool

/-- The `VirtualMachineController` fields `util.go` reads. A lister is the
function from a name to the object its `Get` returns, `none` when `Get` returns
an error. `settingLister` returns the setting's `Spec.Value`. -/
structure VirtualMachineController where
  bridgeIface : String
  noResourceLimits : Bool
  credLister : String → Option Credential
  settingLister : String → Option String

/-- Whether a pod with the given labels is selected by the given match labels:
every key of the selector is a label with the same value (Kubernetes
`MatchLabels` semantics). -/
def matchesLabels (selector : GoMap String) (labels : Option (GoMap String)) : Bool :=
  selector.keys.all (fun k => decide ((labels.getD []).get k = selector.get k))

/-! ## Number rendering -/

/-- Go `strconv.Itoa`. -/
def itoa (n : Int) : String :=
  match n with
  | Int.ofNat m => Nat.repr m
  | Int.negSucc m => "-" ++ Nat.repr (m + 1)

/-- Go `fmt.Sprintf "%08x"` of an unsigned value: lowercase hexadecimal, padded
with zeros on the left to eight digits. -/
def sprintf08x (r : Nat) : String :=
  let digits := Nat.toDigits 16 r
  String.mk (List.replicate (8 - digits.length) '0' ++ digits)

/-- The conversion of an integer to Go `int64`, and the result of `int64`
arithmetic: the value modulo `2^64` in the signed range. -/
def wrapInt64 (x : Int) : Int :=
  (x + 2 ^ 63) % 2 ^ 64 - 2 ^ 63

/-- The conversion `int(x)`; `int` is 64 bits wide. -/
def toInt (x : Int) : Int :=
  wrapInt64 x

/-- Whether a character is a lowercase hexadecimal digit. -/
def isLowerHex (c : Char) : Bool :=
  ('0'.toNat ≤ c.toNat ∧ c.toNat ≤ '9'.toNat) ∨ ('a'.toNat ≤ c.toNat ∧ c.toNat ≤ 'f'.toNat)

/-- The value of a hexadecimal digit. -/
def hexDigitValue (c : Char) : Nat :=
  if c.toNat ≤ '9'.toNat then c.toNat - '0'.toNat else c.toNat - 'a'.toNat + 10

/-- The number a string of hexadecimal digits renders, most significant digit
first. -/
def hexValue (cs : List Char) : Nat :=
  cs.foldl (fun acc c => acc * 16 + hexDigitValue c) 0

/-! ## Kubernetes constants -/

/-- The constant `corev1.ResourceCPU`. -/
def ResourceCPU : String := "cpu"

/-- The constant `corev1.ResourceMemory`. -/
def ResourceMemory : String := "memory"

/-- The constant `corev1.ResourceHugePagesPrefix`. -/
def ResourceHugePagesPrefix : String := "hugepages-"

/-- The constant `corev1.NodeSelectorOpIn`. -/
def NodeSelectorOpIn : String := "In"

/-- The constant `corev1.PullAlways`. -/
def PullAlways : String := "Always"

/-- The format `resource.BinarySI`. -/
def BinarySI : String := "BinarySI"

/-! ## `util.go` -/

/-- The function `CreateConsoleProbe`. -/
def CreateConsoleProbe : Probe :=
  { ExecCommand := ["/bin/sh", "-c", "[ -S /vm/$\x7bMY_POD_NAME\x7d_vnc.sock ]"],
    InitialDelaySeconds := 2, TimeoutSeconds := 2, PeriodSeconds := 3,
    SuccessThreshold := 1, FailureThreshold := 10 }

/-- The function `newPodName`; `r` is the draw `rand.Uint32()`. The two parts
are joined with the delimiter. -/
def newPodName (g : Globals) (name : String) (r : Nat) : String :=
  name ++ g.NameDelimiter ++ sprintf08x r

/-- The method `getImagePullSecrets`. -/
def getImagePullSecrets (g : Globals) (ctrl : VirtualMachineController) : List String :=
  match ctrl.settingLister g.SettingNameRegistrySecret with
  | some value => [value]
  | none => []

/-- The statement `pod.Spec.Containers[0] = f(pod.Spec.Containers[0])`; `none`
when the pod has no container. -/
def updateContainer0 (pod : Pod) (f : Container → Container) : Option Pod :=
  match pod.Spec.Containers with
  | [] => none
  | c :: cs => some { pod with Spec := { pod.Spec with Containers := f c :: cs } }

/-- The method `addMachineAntiAffinity`. -/
def addMachineAntiAffinity (g : Globals) (pod : Pod) (vm : VirtualMachine) : Pod :=
  let affinity : Affinity :=
    { NodeAffinity := none,
      PodAffinity := none,
      PodAntiAffinity := some
        [{ MatchLabels := [("app", g.LabelApp), ("role", g.LabelRoleVM), ("name", vm.Name)],
           TopologyKey := g.LabelNodeHostname }] }
  { pod with Spec := { pod.Spec with Affinity := some affinity } }

/-- The method `addResourceRequirements`. -/
def addResourceRequirements (ctrl : VirtualMachineController) (pod : Pod)
    (vm : VirtualMachine) : Option Pod :=
  if ctrl.noResourceLimits then some pod
  else
    let limits : GoMap Quantity :=
      [(ResourceCPU, { Value := wrapInt64 vm.Spec.Cpus, Format := BinarySI }),
       (ResourceMemory,
         { Value := wrapInt64 (wrapInt64 (wrapInt64 vm.Spec.MemoryMB * 1024) * 1024),
           Format := BinarySI })]
    let limits :=
      if vm.Spec.UseHugePages then
        limits.set (ResourceHugePagesPrefix ++ "2Mi")
          { Value := wrapInt64 (wrapInt64 (wrapInt64 vm.Spec.MemoryMB * 1024) * 1024),
            Format := BinarySI }
      else limits
    updateContainer0 pod (fun c => { c with Resources := { Limits := some limits } })

/-- The first loop of `addPublicKeys`: the credentials that resolve, in the
order of their names. -/
def resolvePublicKeys (ctrl : VirtualMachineController) : List String → List Credential
  | [] => []
  | publicKeyName :: names =>
    match ctrl.credLister publicKeyName with
    | none => resolvePublicKeys ctrl names
    | some publicKey => publicKey :: resolvePublicKeys ctrl names

/-- The second loop of `addPublicKeys` from index `i` on: the variables
appended for the remaining credentials. -/
def publicKeyVars : Nat → List Credential → List EnvVar
  | _, [] => []
  | i, publicKey :: rest =>
    MakeEnvVar ("PUBLIC_KEY_" ++ itoa (i + 1 : Nat)) publicKey.PublicKey none ::
      publicKeyVars (i + 1) rest

/-- The method `addPublicKeys`. -/
def addPublicKeys (ctrl : VirtualMachineController) (pod : Pod) (vm : VirtualMachine) :
    Option Pod :=
  let publicKeys := resolvePublicKeys ctrl vm.Spec.PublicKeys
  updateContainer0 pod (fun c =>
    { c with Env := c.Env ++
        MakeEnvVar "PUBLIC_KEY_COUNT" (itoa publicKeys.length) none ::
          publicKeyVars 0 publicKeys })

/-- The function `addMigratePort`; `r` is the draw `rand.Int()`. The write into
the annotations fails on a nil map. -/
def addMigratePort (pod : Pod) (r : Nat) : Option Pod :=
  let migratePort := itoa (32768 + (r % 32768 : Nat))
  let migratePortVar := MakeEnvVar "MIGRATE_PORT" migratePort none
  match updateContainer0 pod (fun c => { c with Env := c.Env ++ [migratePortVar] }) with
  | none => none
  | some pod =>
    match pod.Annotations with
    | none => none
    | some annotations =>
      some { pod with Annotations := some (annotations.set "migrate_port" migratePort) }

/-- The function `addNodeAffinity`. The write into `pod.Spec.Affinity` fails on
a nil pointer. -/
def addNodeAffinity (g : Globals) (pod : Pod) (vm : VirtualMachine) : Option Pod :=
  if vm.Spec.NodeName = "" then some pod
  else
    match pod.Spec.Affinity with
    | none => none
    | some affinity =>
      let nodeAffinity : NodeAffinity :=
        { Required := some
            [{ MatchExpressions :=
                 [{ Key := g.LabelNodeHostname, Operator := NodeSelectorOpIn,
                    Values := [vm.Spec.NodeName] }] }] }
      some { pod with Spec :=
        { pod.Spec with Affinity := some { affinity with NodeAffinity := some nodeAffinity } } }

/-- The method `createLonghornMachinePod`. `rName` is the draw of `newPodName`
and `rPort` the draw of `addMigratePort`. -/
def createLonghornMachinePod (g : Globals) (ctrl : VirtualMachineController)
    (vm : VirtualMachine) (migrate : Bool) (rName rPort : Nat) : Option Pod :=
  let cpu := itoa (toInt vm.Spec.Cpus)
  let mem := itoa (toInt vm.Spec.MemoryMB)
  let kvmextraargs := vm.Spec.KvmArgs
  let imageVmTools := if vm.Spec.ImageVMTools = "" then g.ImageVMTools else vm.Spec.ImageVMTools
  let consoleProbe := CreateConsoleProbe
  let podName := newPodName g vm.Name rName
  let pod : Pod :=
    { Name := podName,
      Labels := some (
        [("app", g.LabelApp), ("role", g.LabelRoleVM), ("name", vm.Name),
         ("unique_name", podName)]),
      Annotations := some (
        [("cpus", cpu), ("memory_mb", mem), ("id", vm.Status.ID), ("mac", vm.Status.MAC)]),
      Spec :=
        { Volumes :=
            [Volume.MakeVolHostPath "vm-socket" (g.HostStateBaseDir ++ "/" ++ vm.Name),
             Volume.MakeVolHostPath "dev-kvm" "/dev/kvm",
             Volume.MakePvcVol "longhorn" vm.Name],
          InitContainers := [],
          Containers :=
            [{ Name := g.LabelRoleVM,
               Image := imageVmTools,
               ImagePullPolicy := PullAlways,
               Command := ["/opt/rancher/vm-tools/startvm"],
               Env :=
                 [MakeEnvVarFieldPath "MY_POD_NAME" "metadata.name",
                  MakeEnvVarFieldPath "MY_POD_NAMESPACE" "metadata.namespace",
                  MakeEnvVar "IFACE" ctrl.bridgeIface none,
                  MakeEnvVar "KVM_EXTRA_ARGS" kvmextraargs none,
                  MakeEnvVar "MEMORY_MB" mem none,
                  MakeEnvVar "CPUS" cpu none,
                  MakeEnvVar "MAC" vm.Status.MAC none,
                  MakeEnvVar "INSTANCE_ID" vm.Status.ID none,
                  MakeEnvVar "MIGRATE" (if migrate then "true" else "false") none,
                  MakeEnvVar "MY_VM_NAME" vm.Name none],
               VolumeMounts :=
                 [⟨"dev-kvm", "/dev/kvm", "", false⟩,
                  ⟨"vm-socket", "/vm", "", false⟩,
                  ⟨"longhorn", "/longhorn", "", false⟩],
               LivenessProbe := some consoleProbe,
               ReadinessProbe := some consoleProbe,
               SecurityContext := some g.privileged,
               Resources := { Limits := none } }],
          HostNetwork := true,
          ImagePullSecrets := getImagePullSecrets g ctrl,
          Affinity := none,
          TerminationGracePeriodSeconds := none } }
  do
    let pod := addMachineAntiAffinity g pod vm
    let pod ← addResourceRequirements ctrl pod vm
    let pod ← addPublicKeys ctrl pod vm
    let pod ← if migrate then addMigratePort pod rPort else some pod
    addNodeAffinity g pod vm

set_option linter.unusedVariables false in
/-- The method `makeVMPod`. `rName` is the draw of `newPodName` and `rPort` the
draw of `addMigratePort`. -/
def makeVMPod (g : Globals) (ctrl : VirtualMachineController) (vm : VirtualMachine)
    (iface : String) (noResourceLimits : Bool) (migrate : Bool) (rName rPort : Nat) :
    Option Pod :=
  let cpu := itoa (toInt vm.Spec.Cpus)
  let mem := itoa (toInt vm.Spec.MemoryMB)
  let image := vm.Spec.MachineImage
  let kvmextraargs := vm.Spec.KvmArgs
  let consoleProbe := CreateConsoleProbe
  let vmContainer : Container :=
    { Name := g.LabelRoleVM,
      Image := image,
      ImagePullPolicy := PullAlways,
      Command := ["/usr/bin/startvm"],
      Env :=
        [MakeEnvVarFieldPath "MY_POD_NAME" "metadata.name",
         MakeEnvVarFieldPath "MY_POD_NAMESPACE" "metadata.namespace",
         MakeEnvVar "IFACE" ctrl.bridgeIface none,
         MakeEnvVar "KVM_EXTRA_ARGS" kvmextraargs none,
         MakeEnvVar "MEMORY_MB" mem none,
         MakeEnvVar "CPUS" cpu none,
         MakeEnvVar "MAC" vm.Status.MAC none,
         MakeEnvVar "INSTANCE_ID" vm.Status.ID none,
         MakeEnvVar "MIGRATE" (if migrate then "true" else "false") none,
         MakeEnvVar "MY_VM_NAME" vm.Name none],
      VolumeMounts :=
        [⟨"vm-image", "/image", "", false⟩,
         ⟨"vm-volumes", "/volumes", "", false⟩,
         ⟨"dev-kvm", "/dev/kvm", "", false⟩,
         ⟨"hugepages", "/hugepages", "", false⟩,
         ⟨"vm-socket", "/vm", "", false⟩,
         ⟨"vm-fs", "/bin", "bin", true⟩,
         ⟨"vm-fs", "/etc", "etc", false⟩,
         ⟨"vm-fs", "/lib", "lib", true⟩,
         ⟨"vm-fs", "/lib64", "lib64", true⟩,
         ⟨"vm-fs", "/sbin", "sbin", true⟩,
         ⟨"vm-fs", "/usr", "usr", true⟩,
         ⟨"vm-fs", "/var", "var", true⟩],
      LivenessProbe := some consoleProbe,
      ReadinessProbe := some consoleProbe,
      SecurityContext := some g.privileged,
      Resources := { Limits := none } }
  let hugePagesVolume :=
    if vm.Spec.UseHugePages then Volume.MakeVolEmptyDirHugePages "hugepages"
    else Volume.MakeVolEmptyDir "hugepages"
  let vmImageVolume :=
    if vm.Spec.VmImagePvcName = "" then Volume.MakeHostStateVol vm.Name "vm-image"
    else Volume.MakePvcVol "vm-image" vm.Spec.VmImagePvcName
  let vmVolumesVolume :=
    if vm.Spec.VmVolumesPvcName = "" then Volume.MakeHostStateVol vm.Name "vm-volumes"
    else Volume.MakePvcVol "vm-volumes" vm.Spec.VmVolumesPvcName
  let imageVmTools := if vm.Spec.ImageVMTools = "" then g.ImageVMTools else vm.Spec.ImageVMTools
  let uniquePodName := newPodName g vm.Name rName
  let vmPod : Pod :=
    { Name := uniquePodName,
      Labels := some (
        [("app", g.LabelApp), ("name", vm.Name), ("unique_name", uniquePodName),
         ("role", g.LabelRoleVM)]),
      Annotations := some (
        [("cpus", cpu), ("memory_mb", mem), ("image", image), ("id", vm.Status.ID),
         ("mac", vm.Status.MAC)]),
      Spec :=
        { Volumes :=
            [Volume.MakeHostStateVol vm.Name "vm-fs",
             vmImageVolume,
             vmVolumesVolume,
             Volume.MakeVolHostPath "vm-socket" (g.HostStateBaseDir ++ "/" ++ vm.Name),
             Volume.MakeVolHostPath "dev-kvm" "/dev/kvm",
             hugePagesVolume],
          InitContainers :=
            [{ Name := "debootstrap",
               Image := imageVmTools,
               ImagePullPolicy := PullAlways,
               Command := [],
               Env := [],
               VolumeMounts := [⟨"vm-fs", "/vm-tools", "", false⟩],
               LivenessProbe := none,
               ReadinessProbe := none,
               SecurityContext := none,
               Resources := { Limits := none } }],
          Containers := [vmContainer],
          HostNetwork := true,
          ImagePullSecrets := getImagePullSecrets g ctrl,
          Affinity := none,
          TerminationGracePeriodSeconds := none } }
  do
    let vmPod := addMachineAntiAffinity g vmPod vm
    let vmPod ← addResourceRequirements ctrl vmPod vm
    let vmPod ← addPublicKeys ctrl vmPod vm
    let vmPod ← if migrate then addMigratePort vmPod rPort else some vmPod
    addNodeAffinity g vmPod vm

/-- The method `makeNovncPod`. -/
def makeNovncPod (g : Globals) (ctrl : VirtualMachineController) (vm : VirtualMachine)
    (podName : String) : Pod :=
  { Name := vm.Name ++ "-novnc",
    Labels := some [("app", g.LabelApp), ("name", vm.Name), ("role", g.LabelRoleNoVNC)],
    Annotations := none,
    Spec :=
      { Volumes :=
          [Volume.MakeVolHostPath "vm-socket" (g.HostStateBaseDir ++ "/" ++ vm.Name),
           Volume.MakeVolFieldPath "podinfo" "labels" "metadata.labels"],
        InitContainers := [],
        Containers :=
          [{ Name := g.LabelRoleNoVNC,
             Image := g.ImageNoVNC,
             ImagePullPolicy := PullAlways,
             Command := ["novnc"],
             Env := [MakeEnvVar "VM_POD_NAME" podName none],
             VolumeMounts :=
               [⟨"vm-socket", "/vm", "", false⟩,
                ⟨"podinfo", "/podinfo", "", false⟩],
             LivenessProbe := none,
             ReadinessProbe := none,
             SecurityContext := none,
             Resources := { Limits := none } }],
        HostNetwork := false,
        ImagePullSecrets := getImagePullSecrets g ctrl,
        Affinity := some (
          { NodeAffinity := none,
            PodAffinity := some
              [{ MatchLabels :=
                   [("app", g.LabelApp), ("name", vm.Name), ("unique_name", podName),
                    ("role", g.LabelRoleVM)],
                 TopologyKey := "kubernetes.io/hostname" }],
            PodAntiAffinity := none }),
        TerminationGracePeriodSeconds := some 0 } }

/-- The anti-affinity term both VM pod builders set for a VM name. -/
def vmAntiAffinityTerm (g : Globals) (name : String) : PodAffinityTerm :=
  { MatchLabels := [("app", g.LabelApp), ("role", g.LabelRoleVM), ("name", name)],
    TopologyKey := g.LabelNodeHostname }

/-- The `corev1.PodCondition` fields `IsPodUnschedulable` reads; `CondType` is
the field `Type`. -/
structure PodCondition where
  CondType : String
  Status : String
  Reason : String
  deriving DecidableEq, Repr

/-- The constant `corev1.PodScheduled`. -/
def PodScheduled : String := "PodScheduled"

/-- The constant `corev1.ConditionFalse`. -/
def ConditionFalse : String := "False"

/-- The constant `corev1.PodReasonUnschedulable`. -/
def PodReasonUnschedulable : String := "Unschedulable"

/-- The function `IsPodUnschedulable`; the argument is the pod's
`Status.Conditions`, the one part of the pod the function reads. -/
def IsPodUnschedulable : List PodCondition → Bool
  | [] => false
  | condition :: conditions =>
    if condition.CondType = PodScheduled ∧ condition.Status = ConditionFalse then
      decide (condition.Reason = PodReasonUnschedulable)
    else IsPodUnschedulable conditions

/-! ## Sample values -/

/-- Sample package-level values. -/
def sampleGlobals : Globals :=
  { LabelApp := "ranchervm", LabelRoleVM := "vm", LabelRoleNoVNC := "novnc",
    LabelNodeHostname := "kubernetes.io/hostname", NameDelimiter := "-",
    HostStateBaseDir := "/var/lib/rancher/vm", ImageVMTools := "rancher/vm-tools",
    ImageNoVNC := "rancher/vm-novnc", SettingNameRegistrySecret := "registry-secret",
    privileged := true }

/-- A sample controller: limits active, one known credential, no registry
secret. -/
def sampleController : VirtualMachineController :=
  { bridgeIface := "br0", noResourceLimits := false,
    credLister := fun name => if name = "k1" then some ⟨"k1", "ssh-rsa AAAA"⟩ else none,
    settingLister := fun _ => none }

/-- The sample controller with the "no limits" policy active. -/
def sampleControllerNoLimits : VirtualMachineController :=
  { sampleController with noResourceLimits := true }

/-- A sample VM pinned to `node-x`, with huge pages, with a MAC and no IP. -/
def sampleVM : VirtualMachine :=
  { Name := "vm1",
    Spec :=
      { Cpus := 2, MemoryMB := 1024, MachineImage := "rancher/vm-ubuntu", KvmArgs := "",
        PublicKeys := ["k0", "k1"], NodeName := "node-x", UseHugePages := true,
        VmImagePvcName := "", VmVolumesPvcName := "", ImageVMTools := "" },
    Status := { ID := "i-1", MAC := "06:fe:00:00:00:01", IP := "" } }

/-- The sample VM without a pinned node. -/
def sampleVMUnpinned : VirtualMachine :=
  { sampleVM with Spec := { sampleVM.Spec with NodeName := "" } }

/-- A sample record whose one entry is the sample VM's and carries an IP. -/
def sampleARPTable : ARPTable :=
  { APIVersion := "vm.rancher.com/v1alpha1", Kind := "ARPTable", Name := "node-x",
    Table := some
      [("06:fe:00:00:00:01",
        { IP := "10.42.0.5", HWType := "0x1", Flags := "0x2", HWAddress := "06:fe:00:00:00:01",
          Mask := "*", Device := "br0" })] }

/-- A sample record whose one entry is the sample VM's and carries an empty IP. -/
def sampleARPTableEmptyIP : ARPTable :=
  { APIVersion := "vm.rancher.com/v1alpha1", Kind := "ARPTable", Name := "node-x",
    Table := some
      [("06:fe:00:00:00:01",
        { IP := "", HWType := "0x1", Flags := "0x0", HWAddress := "06:fe:00:00:00:01",
          Mask := "*", Device := "br0" })] }

/-- A sample neighbor cache: the header, a managed entry, an unmanaged entry
and a malformed line. -/
def sampleARPText : String :=
  "IP address HW type Flags HW address Mask Device\n" ++
  "10.42.0.5 0x1 0x2 06:fe:00:00:00:01 * br0\n" ++
  "10.42.0.1 0x1 0x2 02:42:ac:11:00:02 * eth0\n" ++
  "incomplete\n"

/-- A sample record with an entry under the empty key and an entry with an empty
IP under the sample VM's MAC. -/
def sampleARPTableOdd : ARPTable :=
  { APIVersion := "vm.rancher.com/v1alpha1", Kind := "ARPTable", Name := "node-x",
    Table := some
      [("", { IP := "10.42.0.9", HWType := "0x1", Flags := "0x2", HWAddress := "",
              Mask := "*", Device := "br0" }),
       ("06:fe:00:00:00:01",
        { IP := "", HWType := "0x1", Flags := "0x0", HWAddress := "06:fe:00:00:00:01",
          Mask := "*", Device := "br0" })] }

/-- A sample VM without a MAC. -/
def sampleVMNoMAC : VirtualMachine :=
  { sampleVM with Name := "vm0", Status := { ID := "i-0", MAC := "", IP := "" } }

/-- A sample stored record whose table is the nil map. -/
def sampleARPTableNil : ARPTable :=
  { APIVersion := "vm.rancher.com/v1alpha1", Kind := "ARPTable", Name := "node-x",
    Table := none }

/-! # Theorems -/

/-! ## Go maps -/

namespace GoMap

theorem get_set {β : Type} (m : GoMap β) (k : String) (v : β) (k' : String) :
    (m.set k v).get k' = if k = k' then some v else m.get k' := by
  induction m with
  | nil => simp [set, get]
  | cons kv m ih =>
    obtain ⟨k0, v0⟩ := kv
    by_cases h0 : k0 = k
    · subst h0
      by_cases h1 : k0 = k' <;> simp [set, get, h1]
    · by_cases h1 : k0 = k'
      · subst h1
        simp [set, get, h0, Ne.symm h0]
      · simp [set, get, h0, h1, ih]

theorem get_eq_none {β : Type} (m : GoMap β) (k : String) (h : k ∉ keys m) :
    m.get k = none := by
  induction m with
  | nil => rfl
  | cons kv m ih =>
    obtain ⟨k0, v0⟩ := kv
    simp only [keys, List.map_cons, List.mem_cons, not_or] at h
    have h2 : ¬ k0 = k := fun e => h.1 e.symm
    simp only [get, h2, if_false]
    exact ih h.2

theorem mem_of_get {β : Type} (m : GoMap β) (k : String) (v : β) (h : m.get k = some v) :
    (k, v) ∈ m := by
  induction m with
  | nil => simp [get] at h
  | cons kv m ih =>
    obtain ⟨k0, v0⟩ := kv
    by_cases h0 : k0 = k
    · simp [get, h0] at h
      simp [h0, h]
    · simp [get, h0] at h
      exact List.mem_cons_of_mem _ (ih h)

theorem mem_set {β : Type} (m : GoMap β) (k : String) (v : β) (p : String × β)
    (h : p ∈ m.set k v) : p = (k, v) ∨ p ∈ m := by
  induction m with
  | nil => simpa [set] using h
  | cons kv m ih =>
    obtain ⟨k0, v0⟩ := kv
    by_cases h0 : k0 = k
    · simp only [set, h0, if_true, List.mem_cons] at h
      rcases h with h | h
      · exact Or.inl h
      · exact Or.inr (List.mem_cons_of_mem _ h)
    · simp only [set, h0, if_false, List.mem_cons] at h
      rcases h with h | h
      · exact Or.inr (h ▸ List.mem_cons_self _ _)
      · rcases ih h with h | h
        · exact Or.inl h
        · exact Or.inr (List.mem_cons_of_mem _ h)

theorem deepEqual_iff {β : Type} [DecidableEq β] (a b : GoMap β) :
    deepEqual a b = true ↔ ∀ k, a.get k = b.get k := by
  constructor
  · intro h k
    by_cases hk : k ∈ keys a ++ keys b
    · have := (List.all_eq_true.1 h) k hk
      simpa using this
    · rw [List.mem_append, not_or] at hk
      rw [get_eq_none a k hk.1, get_eq_none b k hk.2]
  · intro h
    exact List.all_eq_true.2 (fun k _ => by simpa using h k)

end GoMap

/-- The prefix test holds exactly for the strings that begin with the prefix. -/
theorem hasPrefix_iff (s p : String) : hasPrefix s p = true ↔ ∃ rest : String, s = p ++ rest := by
  unfold hasPrefix
  rw [List.isPrefixOf_iff_prefix]
  constructor
  · rintro ⟨t, ht⟩
    refine ⟨String.mk t, ?_⟩
    apply String.ext
    rw [String.data_append, ← ht]
  · rintro ⟨rest, rfl⟩
    exact ⟨rest.data, by rw [String.data_append]⟩

/-! ## The VM status synchronizer -/

theorem status_eq_iff (vm : VirtualMachine) (ip : String) :
    vm.Status = { ID := vm.Status.ID, MAC := vm.Status.MAC, IP := ip } ↔ ip = vm.Status.IP := by
  rcases vm with ⟨n, sp, ⟨i, m, p⟩⟩
  simp [eq_comm]

theorem updateVMsLoop_cons (arpMap : GoMap ARPEntry) (vm : VirtualMachine)
    (vms : List VirtualMachine) :
    updateVMsLoop arpMap (vm :: vms) = (writeOf arpMap vm).toList ++ updateVMsLoop arpMap vms := by
  rw [updateVMsLoop]
  unfold writeOf updateVMStatus
  by_cases hmac : vm.Status.MAC = ""
  · simp [hmac]
  · cases hget : arpMap.get vm.Status.MAC with
    | none => by_cases hip : vm.Status.IP = "" <;> simp [hmac, hget, hip]
    | some entry =>
      by_cases he : entry.IP = vm.Status.IP
      · by_cases hip : vm.Status.IP = "" <;> simp [hmac, hip, he, status_eq_iff]
      · by_cases hip : vm.Status.IP = ""
        · have he2 : ¬ entry.IP = "" := fun h => he (h.trans hip.symm)
          simp [hmac, hip, he2, status_eq_iff]
        · simp [hmac, hip, he, status_eq_iff]

theorem updateVMsLoop_append (arpMap : GoMap ARPEntry) (a b : List VirtualMachine) :
    updateVMsLoop arpMap (a ++ b) = updateVMsLoop arpMap a ++ updateVMsLoop arpMap b := by
  induction a with
  | nil => simp [updateVMsLoop]
  | cons vm a ih => simp [updateVMsLoop_cons, ih]

theorem mem_updateVMsLoop (arpMap : GoMap ARPEntry) (vms : List VirtualMachine)
    (w : VirtualMachine) :
    w ∈ updateVMsLoop arpMap vms ↔ ∃ vm ∈ vms, writeOf arpMap vm = some w := by
  induction vms with
  | nil => simp [updateVMsLoop]
  | cons vm vms ih =>
    rw [updateVMsLoop_cons, List.mem_append, ih]
    cases h : writeOf arpMap vm with
    | none => simp [h]
    | some x =>
      simp only [Option.toList, List.mem_singleton, List.mem_cons, exists_eq_or_imp, h,
        Option.some.injEq]
      constructor
      · rintro (h1 | h1)
        · exact Or.inl (by simpa [eq_comm] using h1)
        · exact Or.inr h1
      · rintro (h1 | h1)
        · exact Or.inl (by simpa [eq_comm] using h1)
        · exact Or.inr h1

theorem writeOf_name (arpMap : GoMap ARPEntry) (vm w : VirtualMachine)
    (h : writeOf arpMap vm = some w) : w.Name = vm.Name := by
  unfold writeOf at h
  split at h
  · simp at h
  · split at h
    · simp at h
    · split at h
      · simp at h
      · simp at h; rw [← h]

theorem writeOf_settled (arpMap : GoMap ARPEntry) (vm w : VirtualMachine)
    (h : writeOf arpMap vm = some w) : writeOf arpMap w = none := by
  unfold writeOf at h
  split at h
  · simp at h
  · rename_i hmac
    split at h
    · simp at h
    · rename_i entry hget
      split at h
      · simp at h
      · simp at h
        subst h
        simp [writeOf, hmac, hget]

theorem updateVMsLoop_eq_nil (arpMap : GoMap ARPEntry) (vms : List VirtualMachine)
    (h : ∀ vm ∈ vms, writeOf arpMap vm = none) : updateVMsLoop arpMap vms = [] := by
  induction vms with
  | nil => simp [updateVMsLoop]
  | cons vm vms ih =>
    rw [updateVMsLoop_cons, h vm (List.mem_cons_self _ _),
      ih (fun x hx => h x (List.mem_cons_of_mem _ hx))]
    rfl

theorem mem_applyWrites (writes vms : List VirtualMachine) (x : VirtualMachine)
    (h : x ∈ applyWrites writes vms) :
    x ∈ writes ∨ (x ∈ vms ∧ ∀ w ∈ writes, w.Name ≠ x.Name) := by
  induction writes generalizing vms with
  | nil => exact Or.inr ⟨by simpa [applyWrites] using h, by simp⟩
  | cons w ws ih =>
    have h2 : x ∈ applyWrites ws (vms.map (fun vm => if vm.Name = w.Name then w else vm)) := by
      simpa [applyWrites] using h
    rcases ih _ h2 with h3 | ⟨h3, h4⟩
    · exact Or.inl (List.mem_cons_of_mem _ h3)
    · rcases List.mem_map.1 h3 with ⟨y, hy, hyx⟩
      by_cases hn : y.Name = w.Name
      · rw [if_pos hn] at hyx
        exact Or.inl (hyx ▸ List.mem_cons_self _ _)
      · rw [if_neg hn] at hyx
        subst hyx
        refine Or.inr ⟨hy, ?_⟩
        intro w2 hw2
        rcases List.mem_cons.1 hw2 with h5 | h5
        · subst h5; exact fun e => hn e.symm
        · exact h4 w2 h5

/-! ## The ARP record reconciler -/

theorem scanLine_eq (table : GoMap ARPEntry) (l : String) :
    scanLine table l =
      match lineEntry l with
      | some (k, e) => table.set k e
      | none => table := by
  unfold scanLine lineEntry
  by_cases h : hasPrefix l "IP" = true
  · simp [h]
  · simp only [h, if_false]
    generalize fields l = fs
    rcases fs with _ | ⟨f0, _ | ⟨f1, _ | ⟨f2, _ | ⟨f3, _ | ⟨f4, _ | ⟨f5, _ | ⟨f6, r⟩⟩⟩⟩⟩⟩⟩
    all_goals try rfl
    by_cases h3 : hasPrefix f3 "06:fe" = true <;> simp [h3]

theorem scanLoop_cons (table : GoMap ARPEntry) (l : String) (ls : List String) :
    scanLoop table (l :: ls) = scanLoop (scanLine table l) ls := rfl

theorem get_scanLine (table : GoMap ARPEntry) (l k : String) :
    (scanLine table l).get k = ((scanLine [] l).get k).or (table.get k) := by
  rw [scanLine_eq, scanLine_eq]
  cases lineEntry l with
  | none => simp [GoMap.get]
  | some p =>
    obtain ⟨k0, e⟩ := p
    simp only [GoMap.get_set]
    by_cases h : k0 = k <;> simp [h, GoMap.get]

theorem get_scanLoop (table : GoMap ARPEntry) (lines : List String) (k : String) :
    (scanLoop table lines).get k = ((scanLoop [] lines).get k).or (table.get k) := by
  induction lines generalizing table with
  | nil => simp [scanLoop, GoMap.get]
  | cons l ls ih =>
    rw [scanLoop_cons, scanLoop_cons, ih (scanLine table l), ih (scanLine [] l),
      get_scanLine table l k]
    cases (scanLoop [] ls).get k <;> simp

theorem scanLoop_idem (table : GoMap ARPEntry) (lines : List String) (k : String) :
    (scanLoop (scanLoop table lines) lines).get k = (scanLoop table lines).get k := by
  rw [get_scanLoop (scanLoop table lines), get_scanLoop table]
  cases (scanLoop [] lines).get k <;> simp

theorem lineEntry_managed (l k : String) (e : ARPEntry) (h : lineEntry l = some (k, e)) :
    hasPrefix k "06:fe" = true ∧ e.HWAddress = k := by
  unfold lineEntry at h
  by_cases hip : hasPrefix l "IP" = true
  · simp [hip] at h
  · simp only [hip, if_false] at h
    generalize fields l = fs at h
    rcases fs with _ | ⟨f0, _ | ⟨f1, _ | ⟨f2, _ | ⟨f3, _ | ⟨f4, _ | ⟨f5, _ | ⟨f6, r⟩⟩⟩⟩⟩⟩⟩
    all_goals try (simp at h; done)
    by_cases h3 : hasPrefix f3 "06:fe" = true
    · simp only [h3, if_true, Option.some.injEq, Prod.mk.injEq] at h
      obtain ⟨hk, he⟩ := h
      exact ⟨h3, rfl⟩
    · simp [h3] at h

theorem scanLine_managed (table : GoMap ARPEntry) (l : String) (h : Managed table) :
    Managed (scanLine table l) := by
  rw [scanLine_eq]
  cases he : lineEntry l with
  | none => exact h
  | some p =>
    obtain ⟨k, e⟩ := p
    intro q hq
    rcases GoMap.mem_set _ _ _ _ hq with h1 | h1
    · subst h1; exact lineEntry_managed l k e he
    · exact h q h1

theorem scanLoop_managed (table : GoMap ARPEntry) (lines : List String) (h : Managed table) :
    Managed (scanLoop table lines) := by
  induction lines generalizing table with
  | nil => exact h
  | cons l ls ih => exact ih _ (scanLine_managed table l h)

theorem scanLineAt_some (table : GoMap ARPEntry) (l : String) :
    scanLineAt (some table) l = some (some (scanLine table l)) := by
  unfold scanLineAt scanLine
  by_cases h : hasPrefix l "IP" = true
  · simp [h]
  · simp only [h, if_false]
    generalize fields l = fs
    rcases fs with _ | ⟨f0, _ | ⟨f1, _ | ⟨f2, _ | ⟨f3, _ | ⟨f4, _ | ⟨f5, _ | ⟨f6, r⟩⟩⟩⟩⟩⟩⟩
    all_goals try rfl
    by_cases h3 : hasPrefix f3 "06:fe" = true <;> simp [h3]

theorem scanLoopAt_some (table : GoMap ARPEntry) (lines : List String) :
    scanLoopAt (some table) lines = some (some (scanLoop table lines)) := by
  induction lines generalizing table with
  | nil => rfl
  | cons l ls ih =>
    rw [scanLoopAt, scanLineAt_some]
    simp only
    rw [ih, scanLoop_cons]

theorem scanLineAt_nil (l : String) :
    scanLineAt none l = if scanLine [] l = [] then some none else none := by
  unfold scanLineAt scanLine
  by_cases h : hasPrefix l "IP" = true
  · simp [h]
  · simp only [h, if_false]
    generalize fields l = fs
    rcases fs with _ | ⟨f0, _ | ⟨f1, _ | ⟨f2, _ | ⟨f3, _ | ⟨f4, _ | ⟨f5, _ | ⟨f6, r⟩⟩⟩⟩⟩⟩⟩
    all_goals try rfl
    by_cases h3 : hasPrefix f3 "06:fe" = true <;> simp [h3, GoMap.set]

theorem scanLoopAt_nil_of_unadmitted (lines : List String)
    (h : ∀ l ∈ lines, scanLine [] l = []) : scanLoopAt none lines = some none := by
  induction lines with
  | nil => rfl
  | cons l ls ih =>
    rw [scanLoopAt, scanLineAt_nil, if_pos (h l (List.mem_cons_self _ _))]
    exact ih (fun x hx => h x (List.mem_cons_of_mem _ hx))

theorem scanLoopAt_nil_of_admitted (lines : List String)
    (h : ∃ l ∈ lines, scanLine [] l ≠ []) : scanLoopAt none lines = none := by
  induction lines with
  | nil =>
    obtain ⟨l, hl, _⟩ := h
    simp at hl
  | cons l ls ih =>
    rw [scanLoopAt, scanLineAt_nil]
    by_cases hl : scanLine [] l = []
    · rw [if_pos hl]
      obtain ⟨x, hx, hne⟩ := h
      rcases List.mem_cons.1 hx with rfl | hx2
      · exact absurd hl hne
      · exact ih ⟨x, hx2, hne⟩
    · rw [if_neg hl]

theorem scanLoopAt_nil_cases (lines : List String) :
    (scanLoopAt none lines = some none ∧ ∀ l ∈ lines, scanLine [] l = []) ∨
      (scanLoopAt none lines = none ∧ ∃ l ∈ lines, scanLine [] l ≠ []) := by
  by_cases h : ∀ l ∈ lines, scanLine [] l = []
  · exact Or.inl ⟨scanLoopAt_nil_of_unadmitted lines h, h⟩
  · have h2 : ∃ l ∈ lines, scanLine [] l ≠ [] := by
      simpa using h
    exact Or.inr ⟨scanLoopAt_nil_of_admitted lines h2, h2⟩

theorem updateARPTableLines_notFound (nodeName : String) (lines : List String) :
    updateARPTableLines nodeName none lines =
      some (ARPWrite.create
        { APIVersion := "vm.rancher.com/v1alpha1", Kind := "ARPTable", Name := nodeName,
          Table := some (scanLoop [] lines) }) := by
  simp [updateARPTableLines, scanLoopAt_some]

theorem updateARPTableLines_found (nodeName : String) (cur : ARPTable) (m : GoMap ARPEntry)
    (lines : List String) (hm : cur.Table = some m) :
    updateARPTableLines nodeName (some cur) lines =
      some (if GoMap.deepEqual m (scanLoop m lines) = true then ARPWrite.noWrite
        else ARPWrite.update { cur with Table := some (scanLoop m lines) }) := by
  by_cases hd : GoMap.deepEqual m (scanLoop m lines) = true <;>
    simp [updateARPTableLines, hm, scanLoopAt_some, deepEqualMap, hd]

theorem updateARPTableLines_found_nil (nodeName : String) (cur : ARPTable)
    (lines : List String) (hm : cur.Table = none) :
    ((∀ l ∈ lines, scanLine [] l = []) →
      updateARPTableLines nodeName (some cur) lines = some ARPWrite.noWrite) ∧
    ((∃ l ∈ lines, scanLine [] l ≠ []) →
      updateARPTableLines nodeName (some cur) lines = none) := by
  constructor
  · intro h
    simp [updateARPTableLines, hm, scanLoopAt_nil_of_unadmitted lines h, deepEqualMap]
  · intro h
    simp [updateARPTableLines, hm, scanLoopAt_nil_of_admitted lines h]

theorem reconcileOnce_managed (nodeName : String) (stored : Option ARPTable) (readFails : Bool)
    (arp : Option String)
    (h : ∀ t, stored = some t → ∃ table, t.Table = some table ∧ Managed table) :
    ∀ t, reconcileOnce nodeName stored readFails arp = some t →
      ∃ table, t.Table = some table ∧ Managed table := by
  intro t ht
  unfold reconcileOnce at ht
  cases readFails with
  | true => exact h t (by simpa [updateARPTable, storeAfter] using ht)
  | false =>
    cases arp with
    | none =>
      cases stored with
      | none => simp [updateARPTable, storeAfter, getStored] at ht
      | some cur => exact h t (by simpa [updateARPTable, storeAfter, getStored] using ht)
    | some text =>
      cases stored with
      | none =>
        simp only [Bool.false_eq_true, if_false, getStored, updateARPTable,
          updateARPTableLines_notFound, storeAfter, Option.some.injEq] at ht
        subst ht
        exact ⟨_, rfl, scanLoop_managed _ _ (fun p hp => by simp at hp)⟩
      | some cur =>
        obtain ⟨m, hm, hmanaged⟩ := h cur rfl
        simp only [Bool.false_eq_true, if_false, getStored, updateARPTable,
          updateARPTableLines_found nodeName cur m _ hm] at ht
        by_cases hd : GoMap.deepEqual m (scanLoop m (scanLines text)) = true
        · simp only [hd, if_true, storeAfter] at ht
          exact h t ht
        · simp only [hd, Bool.false_eq_true, if_false, storeAfter, Option.some.injEq] at ht
          subst ht
          exact ⟨_, rfl, scanLoop_managed _ _ hmanaged⟩

theorem reconcileRuns_managed (nodeName : String) (ticks : List (Bool × Option String))
    (stored : Option ARPTable)
    (h : ∀ t, stored = some t → ∃ table, t.Table = some table ∧ Managed table) :
    ∀ t, reconcileRuns nodeName stored ticks = some t →
      ∃ table, t.Table = some table ∧ Managed table := by
  induction ticks generalizing stored with
  | nil => intro t ht; exact h t ht
  | cons tick ticks ih =>
    intro t ht
    exact ih (reconcileOnce nodeName stored tick.1 tick.2)
      (reconcileOnce_managed nodeName stored tick.1 tick.2 h) t ht

/-! ## The descriptor builders -/

theorem publicKey_name_ne (s : String) : "PUBLIC_KEY_" ++ s ≠ "MIGRATE_PORT" := by
  intro h
  have h2 := congrArg String.data h
  rw [String.data_append] at h2
  have h3 := congrArg List.head? h2
  simp at h3

theorem filter_publicKeyVars (i : Nat) (keys : List Credential) :
    (publicKeyVars i keys).filter (fun e => decide (e.Name = "MIGRATE_PORT")) = [] := by
  induction keys generalizing i with
  | nil => rfl
  | cons k ks ih =>
    simp [publicKeyVars, MakeEnvVar, publicKey_name_ne, ih]

/-- The shape both VM pod builders give the anti-affinity block and the labels:
one required term selecting app, role and name, and labels that meet it. -/
theorem vm_pod_builders_shape (g : Globals) (ctrl : VirtualMachineController)
    (vm : VirtualMachine) (iface : String) (noResourceLimits migrate : Bool)
    (rName rPort : Nat) :
    ∃ pod lpod affinity laffinity,
      makeVMPod g ctrl vm iface noResourceLimits migrate rName rPort = some pod ∧
      createLonghornMachinePod g ctrl vm migrate rName rPort = some lpod ∧
      pod.Spec.Affinity = some affinity ∧ lpod.Spec.Affinity = some laffinity ∧
      affinity.PodAntiAffinity = some [vmAntiAffinityTerm g vm.Name] ∧
      laffinity.PodAntiAffinity = some [vmAntiAffinityTerm g vm.Name] ∧
      matchesLabels (vmAntiAffinityTerm g vm.Name).MatchLabels pod.Labels = true ∧
      matchesLabels (vmAntiAffinityTerm g vm.Name).MatchLabels lpod.Labels = true := by
  unfold makeVMPod createLonghornMachinePod
  by_cases hn : vm.Spec.NodeName = "" <;> cases migrate <;>
    cases hl : ctrl.noResourceLimits <;>
    simp [addMachineAntiAffinity, addResourceRequirements, addPublicKeys, addMigratePort,
      addNodeAffinity, updateContainer0, hn, hl, bind, Option.bind, vmAntiAffinityTerm,
      matchesLabels, GoMap.keys, GoMap.get]

/-! # The claims -/

/-- Claim C1, amended: for every list of VMs and every ARP table, a VM of the
list with an empty status IP, a non-empty MAC and a table entry under that MAC
whose IP is non-empty gets exactly one write in a pass of `updateVMs`: the
writes of the pass are those for the VMs before it, then the VM with its status
IP set to the entry's IP, then those for the VMs after it; and when the names in
the list are distinct this is the only write carrying the VM's name. -/
theorem updateVMs_sets_ip_once (arpTable : ARPTable) (pre post : List VirtualMachine)
    (vm : VirtualMachine) (entry : ARPEntry)
    (hip : vm.Status.IP = "") (hmac : vm.Status.MAC ≠ "")
    (hget : arpTable.arpMap.get vm.Status.MAC = some entry) (hentry : entry.IP ≠ "") :
    updateVMs (some (pre ++ vm :: post)) arpTable =
        some (updateVMsLoop arpTable.arpMap pre ++
          { vm with Status := { vm.Status with IP := entry.IP } } ::
            updateVMsLoop arpTable.arpMap post) ∧
      (((pre ++ vm :: post).map VirtualMachine.Name).Nodup →
        ∀ ws, updateVMs (some (pre ++ vm :: post)) arpTable = some ws →
          ws.filter (fun w => decide (w.Name = vm.Name)) =
            [{ vm with Status := { vm.Status with IP := entry.IP } }]) := by
  have hw : writeOf arpTable.arpMap vm =
      some { vm with Status := { vm.Status with IP := entry.IP } } := by
    have : ¬ entry.IP = vm.Status.IP := fun h => hentry (h.trans hip)
    simp [writeOf, hmac, hget, this]
  have hloop : updateVMsLoop arpTable.arpMap (pre ++ vm :: post) =
      updateVMsLoop arpTable.arpMap pre ++
        { vm with Status := { vm.Status with IP := entry.IP } } ::
          updateVMsLoop arpTable.arpMap post := by
    rw [updateVMsLoop_append, updateVMsLoop_cons, hw]; rfl
  refine ⟨by simp [updateVMs, hloop], ?_⟩
  intro hnd ws hws
  have hws2 : ws = updateVMsLoop arpTable.arpMap pre ++
        { vm with Status := { vm.Status with IP := entry.IP } } ::
          updateVMsLoop arpTable.arpMap post := by
    simp only [updateVMs, hloop, Option.some.injEq] at hws
    exact hws.symm
  have hnd2 := hnd
  rw [List.map_append, List.map_cons, List.nodup_append] at hnd2
  obtain ⟨_, hpost, hdisj⟩ := hnd2
  have hpre : ∀ w ∈ updateVMsLoop arpTable.arpMap pre, ¬ w.Name = vm.Name := by
    intro w hw2 hname
    obtain ⟨y, hy, hyw⟩ := (mem_updateVMsLoop _ _ _).1 hw2
    have h1 : y.Name ∈ pre.map VirtualMachine.Name := List.mem_map_of_mem _ hy
    have h2 := writeOf_name _ _ _ hyw
    exact hdisj h1 (by rw [← h2, hname]; exact List.mem_cons_self _ _)
  have hpost2 : ∀ w ∈ updateVMsLoop arpTable.arpMap post, ¬ w.Name = vm.Name := by
    intro w hw2 hname
    obtain ⟨y, hy, hyw⟩ := (mem_updateVMsLoop _ _ _).1 hw2
    have h1 : y.Name ∈ post.map VirtualMachine.Name := List.mem_map_of_mem _ hy
    have h2 := writeOf_name _ _ _ hyw
    rw [List.nodup_cons] at hpost
    exact hpost.1 (by rw [← hname, h2]; exact h1)
  rw [hws2, List.filter_append, List.filter_cons]
  have e1 : List.filter (fun w => decide (w.Name = vm.Name)) (updateVMsLoop arpTable.arpMap pre)
      = [] := by
    rw [List.filter_eq_nil_iff]; intro w hw2; simpa using hpre w hw2
  have e2 : List.filter (fun w => decide (w.Name = vm.Name)) (updateVMsLoop arpTable.arpMap post)
      = [] := by
    rw [List.filter_eq_nil_iff]; intro w hw2; simpa using hpost2 w hw2
  rw [e1, e2]
  simp

/-- The amended claim C1 on the sample VM and the sample record: the pass
writes the VM once, with the entry's IP. -/
theorem updateVMs_sets_ip_once_witness :
    updateVMs (some ([] ++ sampleVM :: [])) sampleARPTable =
      some [{ sampleVM with Status := { sampleVM.Status with IP := "10.42.0.5" } }] :=
  (updateVMs_sets_ip_once sampleARPTable [] [] sampleVM
    { IP := "10.42.0.5", HWType := "0x1", Flags := "0x2", HWAddress := "06:fe:00:00:00:01",
      Mask := "*", Device := "br0" }
    (by decide) (by decide) (by decide) (by decide)).1

/-- Claim C1 as stated fails: the sample VM has an empty status IP and a
non-empty MAC that is a key of the record, the entry under that key has an
empty IP, and the pass issues no write. -/
theorem updateVMs_empty_entry_ip_no_write :
    sampleVM.Status.IP = "" ∧ sampleVM.Status.MAC ≠ "" ∧
      (sampleARPTableEmptyIP.arpMap.get sampleVM.Status.MAC).isSome = true ∧
      updateVMs (some [sampleVM]) sampleARPTableEmptyIP = some [] := by
  decide

/-- Claim C2: a VM whose status IP equals the IP of the table entry under its
MAC gets no write in a pass of `updateVMs` (the writes of the pass are those for
the other VMs); and a second pass on the same table, over the VM list with the
first pass's writes applied, issues no write at all. -/
theorem updateVMs_idempotent :
    (∀ (arpTable : ARPTable) (pre post : List VirtualMachine) (vm : VirtualMachine)
        (entry : ARPEntry),
        arpTable.arpMap.get vm.Status.MAC = some entry → vm.Status.IP = entry.IP →
        updateVMs (some (pre ++ vm :: post)) arpTable =
          some (updateVMsLoop arpTable.arpMap pre ++ updateVMsLoop arpTable.arpMap post)) ∧
    (∀ (arpTable : ARPTable) (vms ws : List VirtualMachine),
        updateVMs (some vms) arpTable = some ws →
        updateVMs (some (applyWrites ws vms)) arpTable = some []) := by
  constructor
  · intro arpTable pre post vm entry hget hip
    have hw : writeOf arpTable.arpMap vm = none := by
      simp [writeOf, hget, hip]
    simp [updateVMs, updateVMsLoop_append, updateVMsLoop_cons, hw]
  · intro arpTable vms ws hws
    have hws2 : ws = updateVMsLoop arpTable.arpMap vms := by
      simp only [updateVMs, Option.some.injEq] at hws
      exact hws.symm
    subst hws2
    simp only [updateVMs, Option.some.injEq]
    apply updateVMsLoop_eq_nil
    intro x hx
    rcases mem_applyWrites _ _ _ hx with h1 | ⟨h1, h2⟩
    · obtain ⟨y, _, hyw⟩ := (mem_updateVMsLoop _ _ _).1 h1
      exact writeOf_settled _ _ _ hyw
    · cases hxw : writeOf arpTable.arpMap x with
      | none => rfl
      | some w =>
        exact absurd (writeOf_name _ _ _ hxw)
          (h2 w ((mem_updateVMsLoop _ _ _).2 ⟨x, h1, hxw⟩))

/-- Claim C2 on the sample values: the sample VM with the entry's IP already
set is not written, and after the pass over the sample VM its writes applied
leave nothing to write. -/
theorem updateVMs_idempotent_witness :
    updateVMs (some ([] ++
        { sampleVM with Status := { sampleVM.Status with IP := "10.42.0.5" } } :: []))
        sampleARPTable = some [] ∧
      updateVMs (some (applyWrites
        [{ sampleVM with Status := { sampleVM.Status with IP := "10.42.0.5" } }] [sampleVM]))
        sampleARPTable = some [] :=
  ⟨updateVMs_idempotent.1 sampleARPTable [] []
      { sampleVM with Status := { sampleVM.Status with IP := "10.42.0.5" } }
      { IP := "10.42.0.5", HWType := "0x1", Flags := "0x2", HWAddress := "06:fe:00:00:00:01",
        Mask := "*", Device := "br0" } (by decide) (by decide),
    updateVMs_idempotent.2 sampleARPTable [sampleVM]
      [{ sampleVM with Status := { sampleVM.Status with IP := "10.42.0.5" } }] (by decide)⟩

/-- The decision rule of `updateARPTable` when the read and the open succeed: a
Create when no record exists for the node, whatever the scan found; on a record
whose table is not nil, an Update of that record with the merged table if the
merged table differs from the stored one at some key, and no write if the two
read the same at every key; on a record whose table is nil, no write when the
scan admits no line, and a panic when it admits one. -/
theorem updateARPTable_decision (nodeName text : String) :
    updateARPTable nodeName GetResult.notFound (some text) =
        some (ARPWrite.create
          { APIVersion := "vm.rancher.com/v1alpha1", Kind := "ARPTable", Name := nodeName,
            Table := some (scanLoop [] (scanLines text)) }) ∧
      (∀ (curTable : ARPTable) (m : GoMap ARPEntry), curTable.Table = some m →
        ((¬ ∀ k, (scanLoop m (scanLines text)).get k = m.get k) →
          updateARPTable nodeName (GetResult.found curTable) (some text) =
            some (ARPWrite.update
              { curTable with Table := some (scanLoop m (scanLines text)) })) ∧
        ((∀ k, (scanLoop m (scanLines text)).get k = m.get k) →
          updateARPTable nodeName (GetResult.found curTable) (some text) =
            some ARPWrite.noWrite)) ∧
      (∀ curTable : ARPTable, curTable.Table = none →
        ((∀ l ∈ scanLines text, scanLine [] l = []) →
          updateARPTable nodeName (GetResult.found curTable) (some text) =
            some ARPWrite.noWrite) ∧
        ((∃ l ∈ scanLines text, scanLine [] l ≠ []) →
          updateARPTable nodeName (GetResult.found curTable) (some text) = none)) := by
  refine ⟨updateARPTableLines_notFound _ _, fun curTable m hm => ⟨fun h => ?_, fun h => ?_⟩,
    fun curTable hm => updateARPTableLines_found_nil nodeName curTable _ hm⟩
  · have hd : ¬ GoMap.deepEqual m (scanLoop m (scanLines text)) = true := by
      intro hd
      exact h (fun k => ((GoMap.deepEqual_iff _ _).1 hd k).symm)
    simp [updateARPTable, updateARPTableLines_found nodeName curTable m _ hm, hd]
  · have hd : GoMap.deepEqual m (scanLoop m (scanLines text)) = true :=
      (GoMap.deepEqual_iff _ _).2 (fun k => (h k).symm)
    simp [updateARPTable, updateARPTableLines_found nodeName curTable m _ hm, hd]

/-- Claim C3 at the failing input: a record exists for the node, its table is
the nil map (the copy `updateARPTable` works on keeps it nil), and the sample
neighbor cache has an admitted line; the merged table would differ from the
stored one, and the run issues neither an Update nor any other of the three
actions: the assignment into the nil map panics. On the same text with no
record, and on a record with an empty map that is not nil, the run creates and
updates. -/
theorem updateARPTable_nil_table_panics :
    updateARPTable "node-x" (GetResult.found sampleARPTableNil) (some sampleARPText) = none ∧
      updateARPTable "node-x" GetResult.notFound (some sampleARPText) =
        some (ARPWrite.create sampleARPTable) ∧
      updateARPTable "node-x" (GetResult.found { sampleARPTableNil with Table := some [] })
          (some sampleARPText) =
        some (ARPWrite.update sampleARPTable) := by
  decide

/-- Claim C4: from every stored state (no record, or any record) and for every
neighbor-cache text, after one run of `updateARPTable` whose write, if any,
becomes the stored record, a second run on the same text issues neither a
Create nor an Update: it issues no write, or it panics as the first run did,
which can only happen on a stored record whose table is nil; merging the same
scan into the already merged table gives a table with the same reading at every
key. -/
theorem updateARPTable_rescan_no_write (nodeName text : String) (stored : Option ARPTable) :
    (updateARPTable nodeName
        (getStored (storeAfter stored
          (updateARPTable nodeName (getStored stored) (some text)))) (some text) =
        some ARPWrite.noWrite ∨
      updateARPTable nodeName
        (getStored (storeAfter stored
          (updateARPTable nodeName (getStored stored) (some text)))) (some text) = none) ∧
      ((∀ t, stored = some t → t.Table ≠ none) →
        updateARPTable nodeName
          (getStored (storeAfter stored
            (updateARPTable nodeName (getStored stored) (some text)))) (some text) =
          some ARPWrite.noWrite) ∧
      ∀ (table : GoMap ARPEntry) (k : String),
        (scanLoop (scanLoop table (scanLines text)) (scanLines text)).get k =
          (scanLoop table (scanLines text)).get k := by
  have key : ∀ t : GoMap ARPEntry,
      GoMap.deepEqual (scanLoop t (scanLines text))
        (scanLoop (scanLoop t (scanLines text)) (scanLines text)) = true :=
    fun t => (GoMap.deepEqual_iff _ _).2 (fun k => (scanLoop_idem t _ k).symm)
  have main : ∀ cur : ARPTable, ∀ m, cur.Table = some m →
      updateARPTable nodeName
          (getStored (storeAfter (some cur)
            (updateARPTable nodeName (getStored (some cur)) (some text)))) (some text) =
        some ARPWrite.noWrite := by
    intro cur m hm
    by_cases hd : GoMap.deepEqual m (scanLoop m (scanLines text)) = true
    · simp only [getStored, updateARPTable, updateARPTableLines_found nodeName cur m _ hm, hd,
        if_true, storeAfter]
    · simp only [getStored, updateARPTable, updateARPTableLines_found nodeName cur m _ hm, hd,
        Bool.false_eq_true, if_false, storeAfter]
      rw [updateARPTableLines_found nodeName _ (scanLoop m (scanLines text)) _ rfl, key m]
      rfl
  have fresh : updateARPTable nodeName
        (getStored (storeAfter none
          (updateARPTable nodeName (getStored none) (some text)))) (some text) =
      some ARPWrite.noWrite := by
    simp only [getStored, updateARPTable, updateARPTableLines_notFound, storeAfter]
    rw [updateARPTableLines_found nodeName _ (scanLoop [] (scanLines text)) _ rfl, key []]
    rfl
  refine ⟨?_, ?_, fun table k => scanLoop_idem table _ k⟩
  · cases stored with
    | none => exact Or.inl fresh
    | some cur =>
      cases hm : cur.Table with
      | some m => exact Or.inl (main cur m hm)
      | none =>
        rcases scanLoopAt_nil_cases (scanLines text) with ⟨_, h⟩ | ⟨_, h⟩
        · left
          have h1 := (updateARPTableLines_found_nil nodeName cur _ hm).1 h
          simp only [getStored, updateARPTable, h1, storeAfter]
        · right
          have h1 := (updateARPTableLines_found_nil nodeName cur _ hm).2 h
          simp only [getStored, updateARPTable, h1, storeAfter]
  · intro hnil
    cases stored with
    | none => exact fresh
    | some cur =>
      cases hm : cur.Table with
      | some m => exact main cur m hm
      | none => exact absurd hm (hnil cur rfl)

/-- Claim C4 on the sample values: after the run over the stored record with
the empty IP, whose Update becomes the stored record, the second run over the
sample neighbor cache issues no write. -/
theorem updateARPTable_rescan_no_write_witness :
    updateARPTable "node-x"
        (getStored (storeAfter (some sampleARPTableEmptyIP)
          (updateARPTable "node-x" (getStored (some sampleARPTableEmptyIP))
            (some sampleARPText)))) (some sampleARPText) =
      some ARPWrite.noWrite :=
  (updateARPTable_rescan_no_write "node-x" sampleARPText (some sampleARPTableEmptyIP)).2.1
    (fun t ht => by
      have h : sampleARPTableEmptyIP = t := Option.some.inj ht
      rw [← h]
      decide)

/-- Claim C5: starting from no stored record, after any number of ticks of the
reconciler over arbitrary neighbor-cache texts (a tick may also fail to read or
to open), the stored record holds a table that is not nil, every key of that
table begins with `06:fe`, every stored entry has such a hardware address, and
nothing is stored under a key without the prefix. -/
theorem stored_keys_managed (nodeName : String) (ticks : List (Bool × Option String))
    (t : ARPTable) (h : reconcileRuns nodeName none ticks = some t) :
    ∃ table, t.Table = some table ∧
      (∀ k ∈ table.keys, ∃ rest : String, k = "06:fe" ++ rest) ∧
      (∀ k e, table.get k = some e → hasPrefix e.HWAddress "06:fe" = true) ∧
      (∀ k, hasPrefix k "06:fe" = false → table.get k = none) := by
  obtain ⟨table, htable, hm⟩ :=
    reconcileRuns_managed nodeName ticks none (fun t ht => by simp at ht) t h
  have h1 : ∀ k ∈ table.keys, hasPrefix k "06:fe" = true := by
    intro k hk
    obtain ⟨p, hp, rfl⟩ := List.mem_map.1 hk
    exact (hm p hp).1
  refine ⟨table, htable, fun k hk => (hasPrefix_iff _ _).1 (h1 k hk), ?_, ?_⟩
  · intro k e hke
    have := hm (k, e) (GoMap.mem_of_get _ _ _ hke)
    rw [this.2]; exact this.1
  · intro k hk
    apply GoMap.get_eq_none
    intro hmem
    rw [h1 k hmem] at hk
    exact Bool.noConfusion hk

/-- Claim C5 on the sample values: two ticks over the sample neighbor cache
store the sample record, whose keys begin with `06:fe`, and the unmanaged
address of the cache is not stored. -/
theorem stored_keys_managed_witness :
    reconcileRuns "node-x" none [(false, some sampleARPText), (false, some sampleARPText)] =
        some sampleARPTable ∧
      ∃ table, sampleARPTable.Table = some table ∧
        (∀ k ∈ table.keys, ∃ rest : String, k = "06:fe" ++ rest) ∧
        table.get "02:42:ac:11:00:02" = none :=
  ⟨by decide,
    (stored_keys_managed "node-x"
      [(false, some sampleARPText), (false, some sampleARPText)] sampleARPTable
      (by decide)).elim
      (fun table h => ⟨table, h.1, h.2.1, h.2.2.2 "02:42:ac:11:00:02" (by decide)⟩)⟩

/-- Claim C6: for every VM the descriptor built by `makeVMPod` has no node
affinity when `Spec.NodeName` is empty, and when it is a non-empty name it has a
required node affinity with exactly one selector term holding exactly one match
expression: key the node-hostname label, operator In, values the one name. -/
theorem makeVMPod_node_affinity (g : Globals) (ctrl : VirtualMachineController)
    (vm : VirtualMachine) (iface : String) (noResourceLimits migrate : Bool)
    (rName rPort : Nat) :
    ∃ pod affinity,
      makeVMPod g ctrl vm iface noResourceLimits migrate rName rPort = some pod ∧
      pod.Spec.Affinity = some affinity ∧
      (vm.Spec.NodeName = "" → affinity.NodeAffinity = none) ∧
      (vm.Spec.NodeName ≠ "" →
        affinity.NodeAffinity = some
          { Required := some
              [{ MatchExpressions :=
                   [{ Key := g.LabelNodeHostname, Operator := NodeSelectorOpIn,
                      Values := [vm.Spec.NodeName] }] }] }) := by
  unfold makeVMPod
  by_cases hn : vm.Spec.NodeName = "" <;> cases migrate <;> cases hl : ctrl.noResourceLimits <;>
    simp [addMachineAntiAffinity, addResourceRequirements, addPublicKeys, addMigratePort,
      addNodeAffinity, updateContainer0, hn, hl, bind, Option.bind]

/-- Claim C6 on the sample values: the unpinned sample VM gets no node affinity
and the sample VM pinned to `node-x` gets the one term for `node-x`. -/
theorem makeVMPod_node_affinity_witness :
    (∃ pod affinity,
      makeVMPod sampleGlobals sampleController sampleVMUnpinned "br0" false false 7 9 =
        some pod ∧
      pod.Spec.Affinity = some affinity ∧ affinity.NodeAffinity = none) ∧
    (∃ pod affinity,
      makeVMPod sampleGlobals sampleController sampleVM "br0" false false 7 9 = some pod ∧
      pod.Spec.Affinity = some affinity ∧
      affinity.NodeAffinity = some
        { Required := some
            [{ MatchExpressions :=
                 [{ Key := "kubernetes.io/hostname", Operator := "In",
                    Values := ["node-x"] }] }] }) :=
  ⟨(makeVMPod_node_affinity sampleGlobals sampleController sampleVMUnpinned
      "br0" false false 7 9).elim
      (fun pod h => h.elim (fun affinity h2 => ⟨pod, affinity, h2.1, h2.2.1, h2.2.2.1 rfl⟩)),
    (makeVMPod_node_affinity sampleGlobals sampleController sampleVM "br0" false false 7 9).elim
      (fun pod h => h.elim (fun affinity h2 =>
        ⟨pod, affinity, h2.1, h2.2.1, h2.2.2.2 (by decide)⟩))⟩

/-- Claim C7: for every VM and every non-negative draw `r`, the port
`32768 + r mod 32768` lies in `[32768, 65536)`, and the descriptor built with
`migrate = true` has exactly one environment variable named `MIGRATE_PORT` in
its VM container, whose value is the decimal rendering of the port, and the same
rendering under the annotation `migrate_port`; this holds for `makeVMPod` and
for `createLonghornMachinePod`. -/
theorem migrate_port_recorded (g : Globals) (ctrl : VirtualMachineController)
    (vm : VirtualMachine) (iface : String) (noResourceLimits : Bool) (rName r : Nat) :
    32768 ≤ 32768 + r % 32768 ∧ 32768 + r % 32768 < 65536 ∧
    (∃ pod c cs,
      makeVMPod g ctrl vm iface noResourceLimits true rName r = some pod ∧
      pod.Spec.Containers = c :: cs ∧
      c.Env.filter (fun e => decide (e.Name = "MIGRATE_PORT")) =
        [MakeEnvVar "MIGRATE_PORT" (itoa (32768 + r % 32768 : Nat)) none] ∧
      (∃ annotations, pod.Annotations = some annotations ∧
        annotations.get "migrate_port" = some (itoa (32768 + r % 32768 : Nat)))) ∧
    (∃ pod c cs,
      createLonghornMachinePod g ctrl vm true rName r = some pod ∧
      pod.Spec.Containers = c :: cs ∧
      c.Env.filter (fun e => decide (e.Name = "MIGRATE_PORT")) =
        [MakeEnvVar "MIGRATE_PORT" (itoa (32768 + r % 32768 : Nat)) none] ∧
      (∃ annotations, pod.Annotations = some annotations ∧
        annotations.get "migrate_port" = some (itoa (32768 + r % 32768 : Nat)))) := by
  refine ⟨Nat.le_add_right _ _, by omega, ?_, ?_⟩
  · unfold makeVMPod
    by_cases hn : vm.Spec.NodeName = "" <;> cases hl : ctrl.noResourceLimits <;>
      simp [addMachineAntiAffinity, addResourceRequirements, addPublicKeys, addMigratePort,
        addNodeAffinity, updateContainer0, hn, hl, bind, Option.bind, MakeEnvVar,
        MakeEnvVarFieldPath, filter_publicKeyVars, GoMap.set, GoMap.get]
  · unfold createLonghornMachinePod
    by_cases hn : vm.Spec.NodeName = "" <;> cases hl : ctrl.noResourceLimits <;>
      simp [addMachineAntiAffinity, addResourceRequirements, addPublicKeys, addMigratePort,
        addNodeAffinity, updateContainer0, hn, hl, bind, Option.bind, MakeEnvVar,
        MakeEnvVarFieldPath, filter_publicKeyVars, GoMap.set, GoMap.get]

/-- Claim C8: with the controller's "no limits" policy active, the VM container
of the descriptor built for any VM, with huge pages or without, has no resource
limits; with limits active and `UseHugePages` set, its limits hold one quantity
under both `hugepages-2Mi` and `memory`. -/
theorem makeVMPod_resource_limits (g : Globals) (ctrl : VirtualMachineController)
    (vm : VirtualMachine) (iface : String) (noResourceLimits migrate : Bool)
    (rName rPort : Nat) :
    ∃ pod c cs,
      makeVMPod g ctrl vm iface noResourceLimits migrate rName rPort = some pod ∧
      pod.Spec.Containers = c :: cs ∧
      (ctrl.noResourceLimits = true → c.Resources.Limits = none) ∧
      (ctrl.noResourceLimits = false → vm.Spec.UseHugePages = true →
        ∃ limits quantity,
          c.Resources.Limits = some limits ∧
          limits.get (ResourceHugePagesPrefix ++ "2Mi") = some quantity ∧
          limits.get ResourceMemory = some quantity) := by
  unfold makeVMPod
  by_cases hn : vm.Spec.NodeName = "" <;> cases migrate <;> cases hl : ctrl.noResourceLimits <;>
    cases hh : vm.Spec.UseHugePages <;>
    simp [addMachineAntiAffinity, addResourceRequirements, addPublicKeys, addMigratePort,
      addNodeAffinity, updateContainer0, hn, hl, hh, bind, Option.bind, GoMap.set, GoMap.get,
      ResourceCPU, ResourceMemory, ResourceHugePagesPrefix]

/-- Claim C8 on the sample values: the sample VM asks for huge pages; under the
"no limits" controller its container has no limits, and under the sample
controller the two limits hold one quantity. -/
theorem makeVMPod_resource_limits_witness :
    (∃ pod c cs,
      makeVMPod sampleGlobals sampleControllerNoLimits sampleVM "br0" false false 7 9 =
        some pod ∧
      pod.Spec.Containers = c :: cs ∧ c.Resources.Limits = none) ∧
    (∃ pod c cs limits quantity,
      makeVMPod sampleGlobals sampleController sampleVM "br0" true false 7 9 = some pod ∧
      pod.Spec.Containers = c :: cs ∧ c.Resources.Limits = some limits ∧
      limits.get "hugepages-2Mi" = some quantity ∧ limits.get "memory" = some quantity) :=
  ⟨(makeVMPod_resource_limits sampleGlobals sampleControllerNoLimits sampleVM
      "br0" false false 7 9).elim
      (fun pod h => h.elim (fun c h2 => h2.elim (fun cs h3 =>
        ⟨pod, c, cs, h3.1, h3.2.1, h3.2.2.1 rfl⟩))),
    (makeVMPod_resource_limits sampleGlobals sampleController sampleVM
      "br0" true false 7 9).elim
      (fun pod h => h.elim (fun c h2 => h2.elim (fun cs h3 =>
        (h3.2.2.2 rfl rfl).elim (fun limits h4 => h4.elim (fun quantity h5 =>
          ⟨pod, c, cs, limits, quantity, h3.1, h3.2.1, h5.1, h5.2.1, h5.2.2⟩)))))⟩

/-- Claim C9: for every VM, migrate flag and pinned-node setting, the
descriptors built by `makeVMPod` and by `createLonghornMachinePod` each carry
exactly one required pod-anti-affinity term, with the node-hostname label as
topology key and match labels app, role (the VM role) and name (the VM's name);
the labels of each descriptor satisfy that selector, and so do the labels of any
descriptor built for a VM of the same name: two such descriptors each match the
other's anti-affinity selector. -/
theorem vm_pods_anti_affinity (g : Globals) (ctrl ctrl2 : VirtualMachineController)
    (vm vm2 : VirtualMachine) (iface iface2 : String)
    (noResourceLimits noResourceLimits2 migrate migrate2 : Bool)
    (rName rPort rName2 rPort2 : Nat) (hname : vm2.Name = vm.Name) :
    ∃ pod lpod pod2 lpod2 : Pod,
      makeVMPod g ctrl vm iface noResourceLimits migrate rName rPort = some pod ∧
      createLonghornMachinePod g ctrl vm migrate rName rPort = some lpod ∧
      makeVMPod g ctrl2 vm2 iface2 noResourceLimits2 migrate2 rName2 rPort2 = some pod2 ∧
      createLonghornMachinePod g ctrl2 vm2 migrate2 rName2 rPort2 = some lpod2 ∧
      ∀ x ∈ [pod, lpod, pod2, lpod2],
        ∃ affinity term,
          x.Spec.Affinity = some affinity ∧
          affinity.PodAntiAffinity = some [term] ∧
          term.TopologyKey = g.LabelNodeHostname ∧
          term.MatchLabels =
            [("app", g.LabelApp), ("role", g.LabelRoleVM), ("name", vm.Name)] ∧
          ∀ y ∈ [pod, lpod, pod2, lpod2], matchesLabels term.MatchLabels y.Labels = true := by
  obtain ⟨pod, lpod, a, la, h1, h2, h3, h4, h5, h6, h7, h8⟩ :=
    vm_pod_builders_shape g ctrl vm iface noResourceLimits migrate rName rPort
  obtain ⟨pod2, lpod2, a2, la2, k1, k2, k3, k4, k5, k6, k7, k8⟩ :=
    vm_pod_builders_shape g ctrl2 vm2 iface2 noResourceLimits2 migrate2 rName2 rPort2
  rw [hname] at k5 k6 k7 k8
  refine ⟨pod, lpod, pod2, lpod2, h1, h2, k1, k2, ?_⟩
  have hall : ∀ y ∈ [pod, lpod, pod2, lpod2],
      matchesLabels (vmAntiAffinityTerm g vm.Name).MatchLabels y.Labels = true := by
    intro y hy
    simp only [List.mem_cons, List.mem_singleton, List.not_mem_nil, or_false] at hy
    rcases hy with rfl | rfl | rfl | rfl
    · exact h7
    · exact h8
    · exact k7
    · exact k8
  intro x hx
  simp only [List.mem_cons, List.mem_singleton, List.not_mem_nil, or_false] at hx
  rcases hx with rfl | rfl | rfl | rfl
  · exact ⟨a, _, h3, h5, rfl, rfl, hall⟩
  · exact ⟨la, _, h4, h6, rfl, rfl, hall⟩
  · exact ⟨a2, _, k3, k5, rfl, rfl, hall⟩
  · exact ⟨la2, _, k4, k6, rfl, rfl, hall⟩

/-- Claim C9 on the sample values: a migration build for the unpinned sample VM
by another controller and a plain build for the pinned one carry the one term
for `vm1`, and each meets the other's selector. -/
theorem vm_pods_anti_affinity_witness :
    ∃ pod lpod pod2 lpod2 : Pod,
      makeVMPod sampleGlobals sampleController sampleVM "br0" false false 7 9 = some pod ∧
      createLonghornMachinePod sampleGlobals sampleController sampleVM false 7 9 = some lpod ∧
      makeVMPod sampleGlobals sampleControllerNoLimits sampleVMUnpinned "br1" true true 8 10 =
        some pod2 ∧
      createLonghornMachinePod sampleGlobals sampleControllerNoLimits sampleVMUnpinned
        true 8 10 = some lpod2 ∧
      ∀ x ∈ [pod, lpod, pod2, lpod2],
        ∃ affinity term,
          x.Spec.Affinity = some affinity ∧
          affinity.PodAntiAffinity = some [term] ∧
          term.TopologyKey = "kubernetes.io/hostname" ∧
          term.MatchLabels = [("app", "ranchervm"), ("role", "vm"), ("name", "vm1")] ∧
          ∀ y ∈ [pod, lpod, pod2, lpod2], matchesLabels term.MatchLabels y.Labels = true :=
  vm_pods_anti_affinity sampleGlobals sampleController sampleControllerNoLimits sampleVM
    sampleVMUnpinned "br0" "br1" false true false true 7 9 8 10 rfl

/-- Claim C10: for every VM and instance name `p`, the console descriptor
`makeNovncPod vm p` carries exactly one required pod-affinity term, with match
labels app, name (the VM's name), unique_name `p` and role (the VM role); the
descriptor `makeVMPod` builds for that VM under the generated name `p` has `p` as
its unique_name label and satisfies the selector, and no label set whose
unique_name differs from `p` satisfies it. -/
theorem makeNovncPod_affinity (g : Globals) (ctrl : VirtualMachineController)
    (vm : VirtualMachine) (p : String) :
    ∃ affinity term,
      (makeNovncPod g ctrl vm p).Spec.Affinity = some affinity ∧
      affinity.PodAffinity = some [term] ∧
      term.MatchLabels =
        [("app", g.LabelApp), ("name", vm.Name), ("unique_name", p), ("role", g.LabelRoleVM)] ∧
      (∀ (iface : String) (noResourceLimits migrate : Bool) (rName rPort : Nat),
        newPodName g vm.Name rName = p →
        ∃ pod, makeVMPod g ctrl vm iface noResourceLimits migrate rName rPort = some pod ∧
          pod.Name = p ∧
          (∃ labels, pod.Labels = some labels ∧ labels.get "unique_name" = some pod.Name) ∧
          matchesLabels term.MatchLabels pod.Labels = true) ∧
      (∀ labels : GoMap String, labels.get "unique_name" ≠ some p →
        matchesLabels term.MatchLabels (some labels) = false) ∧
      matchesLabels term.MatchLabels none = false := by
  refine ⟨_, _, rfl, rfl, rfl, ?_, ?_, ?_⟩
  · intro iface noResourceLimits migrate rName rPort hp
    subst hp
    unfold makeVMPod
    by_cases hn : vm.Spec.NodeName = "" <;> cases migrate <;>
      cases hl : ctrl.noResourceLimits <;>
      simp [addMachineAntiAffinity, addResourceRequirements, addPublicKeys, addMigratePort,
        addNodeAffinity, updateContainer0, hn, hl, bind, Option.bind,
        matchesLabels, GoMap.keys, GoMap.get]
  · intro labels h
    simp [matchesLabels, GoMap.keys, GoMap.get]
    intro _ _ h3
    exact absurd h3 h
  · simp [matchesLabels, GoMap.keys, GoMap.get]

/-- Claim C10 on the sample values: the console descriptor for the instance
`vm1-00000007` selects the VM descriptor built with the draw 7 and does not
select the labels of the instance built with the draw 8. -/
theorem makeNovncPod_affinity_witness :
    ∃ affinity term pod,
      (makeNovncPod sampleGlobals sampleController sampleVM "vm1-00000007").Spec.Affinity =
        some affinity ∧
      affinity.PodAffinity = some [term] ∧
      makeVMPod sampleGlobals sampleController sampleVM "br0" false false 7 9 = some pod ∧
      pod.Name = "vm1-00000007" ∧
      matchesLabels term.MatchLabels pod.Labels = true ∧
      matchesLabels term.MatchLabels
        (some [("app", "ranchervm"), ("name", "vm1"), ("unique_name", "vm1-00000008"),
          ("role", "vm")]) = false :=
  (makeNovncPod_affinity sampleGlobals sampleController sampleVM "vm1-00000007").elim
    (fun affinity h => h.elim (fun term h2 =>
      (h2.2.2.2.1 "br0" false false 7 9 (by decide)).elim (fun pod h3 =>
        ⟨affinity, term, pod, h2.1, h2.2.1, h3.1, h3.2.1, h3.2.2.2,
          h2.2.2.2.2.1 _ (by decide)⟩)))

theorem resolvePublicKeys_eq (ctrl : VirtualMachineController) (names : List String) :
    resolvePublicKeys ctrl names = names.filterMap ctrl.credLister := by
  induction names with
  | nil => rfl
  | cons n ns ih =>
    cases h : ctrl.credLister n <;> simp [resolvePublicKeys, List.filterMap_cons, h, ih]

theorem publicKeyVars_eq (i : Nat) (keys : List Credential) :
    publicKeyVars i keys =
      (keys.enumFrom i).map
        (fun ik => MakeEnvVar ("PUBLIC_KEY_" ++ itoa (ik.1 + 1 : Nat)) ik.2.PublicKey none) := by
  induction keys generalizing i with
  | nil => rfl
  | cons k ks ih => simp [publicKeyVars, List.enumFrom, ih]

/-- Claim C11: for every list of credential names and every outcome of the
lookups, `addPublicKeys` on a pod with a VM container keeps the container's
environment and appends to it `PUBLIC_KEY_COUNT` with the decimal number of
names that resolved, followed by `PUBLIC_KEY_1`, `PUBLIC_KEY_2`, ... carrying the
key material of the resolved credentials in the order their names are listed;
a name that does not resolve is skipped, the step returns a pod whatever the
lookups answer, and so does the build by `makeVMPod`, whose VM container then
has exactly these variables after its ten fixed ones (and before the migration
port). -/
theorem addPublicKeys_env (g : Globals) (ctrl : VirtualMachineController) (vm : VirtualMachine) :
    (∀ (pod : Pod) (c : Container) (cs : List Container),
      pod.Spec.Containers = c :: cs →
      addPublicKeys ctrl pod vm = some
        { pod with Spec := { pod.Spec with Containers :=
            { c with Env := (c.Env ++
                MakeEnvVar "PUBLIC_KEY_COUNT"
                    (itoa ((vm.Spec.PublicKeys.filterMap ctrl.credLister).length : Nat)) none ::
                  ((vm.Spec.PublicKeys.filterMap ctrl.credLister).enum.map
                    (fun ik =>
                      MakeEnvVar ("PUBLIC_KEY_" ++ itoa (ik.1 + 1 : Nat)) ik.2.PublicKey none))) }
              :: cs } }) ∧
    (∀ (iface : String) (noResourceLimits migrate : Bool) (rName rPort : Nat),
      ∃ pod c cs,
        makeVMPod g ctrl vm iface noResourceLimits migrate rName rPort = some pod ∧
        pod.Spec.Containers = c :: cs ∧
        (c.Env.take 10).length = 10 ∧
        c.Env.drop 10 =
          MakeEnvVar "PUBLIC_KEY_COUNT"
              (itoa ((vm.Spec.PublicKeys.filterMap ctrl.credLister).length : Nat)) none ::
            ((vm.Spec.PublicKeys.filterMap ctrl.credLister).enum.map
              (fun ik =>
                MakeEnvVar ("PUBLIC_KEY_" ++ itoa (ik.1 + 1 : Nat)) ik.2.PublicKey none)) ++
            (if migrate then
              [MakeEnvVar "MIGRATE_PORT" (itoa (32768 + rPort % 32768 : Nat)) none]
            else [])) := by
  constructor
  · intro pod c cs hc
    simp [addPublicKeys, updateContainer0, hc, resolvePublicKeys_eq, publicKeyVars_eq,
      List.enum]
  · intro iface noResourceLimits migrate rName rPort
    unfold makeVMPod
    by_cases hn : vm.Spec.NodeName = "" <;> cases migrate <;>
      cases hl : ctrl.noResourceLimits <;>
      simp [addMachineAntiAffinity, addResourceRequirements, addPublicKeys, addMigratePort,
        addNodeAffinity, updateContainer0, hn, hl, bind, Option.bind, resolvePublicKeys_eq,
        publicKeyVars_eq, List.enum]

/-- Claim C11 on the sample values: of the sample VM's two names only `k1`
resolves, and on the console pod, whose container holds one variable, the step
appends the count 1 and the one key. -/
theorem addPublicKeys_env_witness :
    (addPublicKeys sampleController
        (makeNovncPod sampleGlobals sampleController sampleVM "vm1-00000007") sampleVM).map
        (fun pod => pod.Spec.Containers.map Container.Env) =
      some
        [[MakeEnvVar "VM_POD_NAME" "vm1-00000007" none,
          MakeEnvVar "PUBLIC_KEY_COUNT" "1" none,
          MakeEnvVar "PUBLIC_KEY_1" "ssh-rsa AAAA" none]] :=
  (congrArg (Option.map (fun pod => pod.Spec.Containers.map Container.Env))
    ((addPublicKeys_env sampleGlobals sampleController sampleVM).1
      (makeNovncPod sampleGlobals sampleController sampleVM "vm1-00000007") _ _ rfl)).trans
    (by decide)

theorem hexDigit_digitChar (k : Nat) (hk : k < 16) :
    hexDigitValue (Nat.digitChar k) = k ∧ isLowerHex (Nat.digitChar k) = true := by
  interval_cases k <;> decide

theorem hexValue_append (xs ds : List Char) :
    hexValue (xs ++ ds) = ds.foldl (fun acc c => acc * 16 + hexDigitValue c) (hexValue xs) := by
  simp [hexValue, List.foldl_append]

theorem toDigitsCore_hex (fuel : Nat) :
    ∀ (n : Nat) (ds : List Char), n < fuel →
      ∃ xs : List Char, Nat.toDigitsCore 16 fuel n ds = xs ++ ds ∧ hexValue xs = n ∧
        (∀ c ∈ xs, isLowerHex c = true) ∧ 1 ≤ xs.length ∧
        ∀ e, 1 ≤ e → n < 16 ^ e → xs.length ≤ e := by
  induction fuel with
  | zero => intro n ds h; omega
  | succ fuel ih =>
    intro n ds h
    have hd := hexDigit_digitChar (n % 16) (Nat.mod_lt _ (by decide))
    by_cases h0 : n / 16 = 0
    · refine ⟨[Nat.digitChar (n % 16)], ?_, ?_, ?_, ?_, ?_⟩
      · simp [Nat.toDigitsCore, h0]
      · simp only [hexValue, List.foldl_cons, List.foldl_nil, hd.1]
        omega
      · intro c hc
        simp only [List.mem_singleton] at hc
        rw [hc]; exact hd.2
      · simp
      · intro e he _; simpa using he
    · have hlt : n / 16 < fuel := by omega
      obtain ⟨xs, hxs, hv, hall, hlen, hbound⟩ := ih (n / 16) (Nat.digitChar (n % 16) :: ds) hlt
      refine ⟨xs ++ [Nat.digitChar (n % 16)], ?_, ?_, ?_, ?_, ?_⟩
      · simp [Nat.toDigitsCore, h0, hxs]
      · rw [hexValue_append]
        simp only [List.foldl_cons, List.foldl_nil, hv, hd.1]
        omega
      · intro c hc
        rcases List.mem_append.1 hc with h1 | h1
        · exact hall c h1
        · simp only [List.mem_singleton] at h1
          rw [h1]; exact hd.2
      · simp
      · intro e he hne
        have he2 : 2 ≤ e := by
          rcases Nat.lt_or_ge e 2 with h2 | h2
          · have : e = 1 := by omega
            subst this
            simp at hne
            omega
          · exact h2
        have : n / 16 < 16 ^ (e - 1) := by
          rw [Nat.div_lt_iff_lt_mul (by decide)]
          have : 16 ^ e = 16 ^ (e - 1) * 16 := by
            rw [← Nat.pow_succ]; congr 1; omega
          omega
        have := hbound (e - 1) (by omega) this
        simp
        omega

theorem hexValue_zeros (k : Nat) (xs : List Char) :
    hexValue (List.replicate k '0' ++ xs) = hexValue xs := by
  induction k with
  | zero => rfl
  | succ k ih =>
    have : hexValue ('0' :: (List.replicate k '0' ++ xs)) =
        hexValue (List.replicate k '0' ++ xs) := by
      simp only [hexValue, List.foldl_cons]
      rfl
    simpa [List.replicate_succ] using this.trans ih

theorem sprintf08x_spec (r : Nat) (hr : r < 2 ^ 32) :
    (sprintf08x r).data.length = 8 ∧ (∀ c ∈ (sprintf08x r).data, isLowerHex c = true) ∧
      hexValue (sprintf08x r).data = r := by
  obtain ⟨xs, hxs, hv, hall, hlen, hbound⟩ := toDigitsCore_hex (r + 1) r [] (Nat.lt_succ_self r)
  have h8 : xs.length ≤ 8 := hbound 8 (by decide) (by
    have : (16 : Nat) ^ 8 = 2 ^ 32 := by norm_num
    omega)
  have hd : Nat.toDigits 16 r = xs := by simpa [Nat.toDigits] using hxs
  unfold sprintf08x
  simp only [hd]
  refine ⟨?_, ?_, ?_⟩
  · simp; omega
  · intro c hc
    rcases List.mem_append.1 hc with h1 | h1
    · rw [(List.mem_replicate.1 h1).2]; decide
    · exact hall c h1
  · rw [hexValue_zeros, hv]

/-- Claim C12: for every VM name and every 32-bit draw `r`, `newPodName` returns
the name, then the delimiter, then a suffix of exactly eight lowercase
hexadecimal digits whose value is `r`; so for a fixed name two draws give the
same instance name if and only if they are the same draw. -/
theorem newPodName_suffix (g : Globals) (name : String) (r : Nat) (hr : r < 2 ^ 32) :
    newPodName g name r = name ++ g.NameDelimiter ++ sprintf08x r ∧
      (sprintf08x r).length = 8 ∧
      (∀ c ∈ (sprintf08x r).data, isLowerHex c = true) ∧
      hexValue (sprintf08x r).data = r ∧
      ∀ r2 : Nat, r2 < 2 ^ 32 → (newPodName g name r = newPodName g name r2 ↔ r = r2) := by
  obtain ⟨h1, h2, h3⟩ := sprintf08x_spec r hr
  refine ⟨rfl, h1, h2, h3, ?_⟩
  intro r2 hr2
  constructor
  · intro h
    have h4 : sprintf08x r = sprintf08x r2 := by
      unfold newPodName at h
      have := congrArg String.data h
      simp only [String.data_append, List.append_assoc, List.append_cancel_left_eq] at this
      exact String.ext this
    rw [← h3, h4, (sprintf08x_spec r2 hr2).2.2]
  · intro h; rw [h]

/-- Claim C12 on sample draws: the draw `3735928559` gives the suffix
`deadbeef` and differs from the name given by the draw 7. -/
theorem newPodName_suffix_witness :
    newPodName sampleGlobals "vm1" 3735928559 = "vm1-deadbeef" ∧
      (newPodName sampleGlobals "vm1" 3735928559 = newPodName sampleGlobals "vm1" 7 ↔
        3735928559 = 7) :=
  ⟨((newPodName_suffix sampleGlobals "vm1" 3735928559 (by decide)).1).trans (by decide),
    (newPodName_suffix sampleGlobals "vm1" 3735928559 (by decide)).2.2.2.2 7 (by decide)⟩

theorem writeOf_spec (arpMap : GoMap ARPEntry) (vm w : VirtualMachine)
    (h : writeOf arpMap vm = some w) :
    vm.Status.MAC ≠ "" ∧ ∃ entry, arpMap.get vm.Status.MAC = some entry ∧
      entry.IP ≠ vm.Status.IP ∧ w = { vm with Status := { vm.Status with IP := entry.IP } } := by
  unfold writeOf at h
  split at h
  · simp at h
  · rename_i hmac
    split at h
    · simp at h
    · rename_i entry hget
      split at h
      · simp at h
      · rename_i hne
        simp only [Option.some.injEq] at h
        exact ⟨hmac, entry, hget, hne, h.symm⟩

/-- Claim C13: for every VM list and every ARP table, also one with an entry
under the empty key or an entry with an empty IP, every write issued by
`updateVMs` comes from a listed VM with a non-empty MAC and an entry under that
MAC, is that VM with its status IP set to the entry's IP, and that IP differs
from the VM's stored one; a VM with an empty MAC adds no write to the pass. -/
theorem updateVMs_writes_only_changes (arpTable : ARPTable) (vms ws : List VirtualMachine)
    (h : updateVMs (some vms) arpTable = some ws) :
    (∀ w ∈ ws, ∃ vm ∈ vms, ∃ entry,
        vm.Status.MAC ≠ "" ∧ arpTable.arpMap.get vm.Status.MAC = some entry ∧
        w = { vm with Status := { vm.Status with IP := entry.IP } } ∧
        w.Status.MAC ≠ "" ∧ w.Status.IP ≠ vm.Status.IP) ∧
      (∀ (pre post : List VirtualMachine) (vm : VirtualMachine),
        vms = pre ++ vm :: post → vm.Status.MAC = "" →
        ws = updateVMsLoop arpTable.arpMap pre ++ updateVMsLoop arpTable.arpMap post) := by
  have hws : ws = updateVMsLoop arpTable.arpMap vms := by
    simp only [updateVMs, Option.some.injEq] at h
    exact h.symm
  subst hws
  constructor
  · intro w hw
    obtain ⟨vm, hvm, hwr⟩ := (mem_updateVMsLoop _ _ _).1 hw
    obtain ⟨hmac, entry, hget, hne, rfl⟩ := writeOf_spec _ _ _ hwr
    exact ⟨vm, hvm, entry, hmac, hget, rfl, hmac, hne⟩
  · intro pre post vm hvms hmac
    subst hvms
    have : writeOf arpTable.arpMap vm = none := by simp [writeOf, hmac]
    simp [updateVMsLoop_append, updateVMsLoop_cons, this]

/-- Claim C13 on the sample values: against the record with an entry under the
empty key and an empty IP under the sample VM's MAC, neither the VM without a
MAC nor the sample VM is written. -/
theorem updateVMs_writes_only_changes_witness :
    updateVMs (some ([] ++ sampleVMNoMAC :: [sampleVM])) sampleARPTableOdd = some [] ∧
      [] = updateVMsLoop sampleARPTableOdd.arpMap [] ++
        updateVMsLoop sampleARPTableOdd.arpMap [sampleVM] :=
  ⟨by decide,
    (updateVMs_writes_only_changes sampleARPTableOdd ([] ++ sampleVMNoMAC :: [sampleVM]) []
      (by decide)).2 [] [sampleVM] sampleVMNoMAC rfl (by decide)⟩

theorem rawLinesAux_segment (seg cs : List Char) (h : '\n' ∉ seg) :
    ∀ cur : List Char,
      rawLinesAux (seg ++ '\n' :: cs) cur =
        String.mk (cur.reverse ++ seg) :: rawLinesAux cs [] := by
  induction seg with
  | nil => intro cur; simp [rawLinesAux]
  | cons c seg ih =>
    intro cur
    have hc : ¬ c = '\n' := fun e => h (e ▸ List.mem_cons_self _ _)
    have hseg : '\n' ∉ seg := fun hm => h (List.mem_cons_of_mem _ hm)
    have := ih hseg (c :: cur)
    simp only [List.cons_append, rawLinesAux, hc, if_false]
    simpa using this

theorem length_le_utf8Len (s : String) : s.data.length ≤ utf8Len s := by
  unfold utf8Len
  induction s.data with
  | nil => simp
  | cons c cs ih =>
    have hc : 1 ≤ utf8Bytes c := by
      unfold utf8Bytes
      split
      · exact Nat.le_refl 1
      · split
        · decide
        · split <;> decide
    simp only [List.map_cons, List.sum_cons, List.length_cons]
    omega

/-- The scan stops at a line of 64 KiB or more: after a first line below the
token limit, a line of at least `maxScanTokenSize` characters is not yielded
and nothing that follows it is. -/
theorem scanLines_stops_at_long_line (head long rest : List Char)
    (hhead : '\n' ∉ head) (hlong : '\n' ∉ long)
    (hshort : utf8Len (String.mk head) < maxScanTokenSize)
    (hsize : maxScanTokenSize ≤ long.length) :
    scanLines (String.mk (head ++ '\n' :: (long ++ '\n' :: rest))) =
      [scanToken (String.mk head)] := by
  have h1 : rawLines (String.mk (head ++ '\n' :: (long ++ '\n' :: rest))) =
      String.mk head :: String.mk long :: rawLinesAux rest [] := by
    unfold rawLines
    simp only [rawLinesAux_segment head _ hhead, rawLinesAux_segment long _ hlong,
      List.reverse_nil, List.nil_append]
  have h2 : ¬ utf8Len (String.mk long) < maxScanTokenSize := by
    have := length_le_utf8Len (String.mk long)
    simp only at this
    omega
  unfold scanLines
  rw [h1]
  simp [List.takeWhile, hshort, h2]

theorem scanLoop_append (table : GoMap ARPEntry) (a b : List String) :
    scanLoop table (a ++ b) = scanLoop (scanLoop table a) b := by
  simp [scanLoop, List.foldl_append]

theorem get_scanLoop_unreported (table : GoMap ARPEntry) (lines : List String) (k : String)
    (h : ∀ l ∈ lines, (scanLine [] l).get k = none) :
    (scanLoop table lines).get k = table.get k := by
  induction lines generalizing table with
  | nil => rfl
  | cons l ls ih =>
    rw [scanLoop_cons, ih _ (fun l' hl' => h l' (List.mem_cons_of_mem _ hl')), get_scanLine,
      h l (List.mem_cons_self _ _)]
    rfl

/-- The merge of `updateARPTable` into a stored table that is not nil: the
merged table (the one it submits when it updates) keeps every key of the stored
table; a key that no scanned line reports keeps its stored entry, and a key the
scan reports maps to the entry of the last scanned line reporting it. A line
reports a key when, scanned alone into an empty table, it leaves an entry under
that key. -/
theorem merged_table_overwrites_by_key (nodeName text : String) (curTable : ARPTable)
    (m : GoMap ARPEntry) (hm : curTable.Table = some m) (k : String) :
    (∀ newTable, updateARPTable nodeName (GetResult.found curTable) (some text) =
        some (ARPWrite.update newTable) →
      newTable.Table = some (scanLoop m (scanLines text))) ∧
    (m.get k ≠ none → (scanLoop m (scanLines text)).get k ≠ none) ∧
    ((∀ l ∈ scanLines text, (scanLine [] l).get k = none) →
      (scanLoop m (scanLines text)).get k = m.get k) ∧
    (∀ (pre post : List String) (l : String) (e : ARPEntry),
      scanLines text = pre ++ l :: post → (scanLine [] l).get k = some e →
      (∀ l2 ∈ post, (scanLine [] l2).get k = none) →
      (scanLoop m (scanLines text)).get k = some e) := by
  refine ⟨?_, ?_, ?_, ?_⟩
  · intro newTable h
    simp only [updateARPTable, updateARPTableLines_found nodeName curTable m _ hm,
      Option.some.injEq] at h
    split at h
    · exact ARPWrite.noConfusion h
    · simp only [ARPWrite.update.injEq] at h
      rw [← h]
  · intro h
    rw [get_scanLoop]
    cases h1 : (scanLoop [] (scanLines text)).get k with
    | none => simpa using h
    | some e => simp
  · exact get_scanLoop_unreported _ _ _
  · intro pre post l e hl he hpost
    rw [hl, scanLoop_append, scanLoop_cons, get_scanLoop_unreported _ post k hpost,
      get_scanLine, he]
    rfl

/-- Claim C15 at the failing input: the stored table is the nil map and the
second line of the sample neighbor cache reports the key `06:fe:00:00:00:01`;
the scan loop panics at that line, so `updateARPTable` computes no merged table
in which the key maps to the line's entry. On the stored table with the empty
IP, which is not nil, the merged table maps the key to the line's entry. -/
theorem merge_into_nil_table_panics :
    sampleARPTableNil.Table = none ∧
      (scanLine [] "10.42.0.5 0x1 0x2 06:fe:00:00:00:01 * br0").get "06:fe:00:00:00:01" =
        some { IP := "10.42.0.5", HWType := "0x1", Flags := "0x2",
               HWAddress := "06:fe:00:00:00:01", Mask := "*", Device := "br0" } ∧
      scanLoopAt sampleARPTableNil.Table (scanLines sampleARPText) = none ∧
      (scanLoopAt sampleARPTableEmptyIP.Table (scanLines sampleARPText)).map
          (Option.map (fun table => table.get "06:fe:00:00:00:01")) =
        some (some (some
          { IP := "10.42.0.5", HWType := "0x1", Flags := "0x2",
            HWAddress := "06:fe:00:00:00:01", Mask := "*", Device := "br0" })) := by
  decide

/-- Claim C16: when the read of the stored record fails with an error other
than not-found, or when the neighbor cache cannot be opened, `updateARPTable`
issues neither a Create nor an Update; a not-found read goes on from an empty
table in a record named after the node, which it creates. -/
theorem updateARPTable_failures_write_nothing (nodeName : String) :
    (∀ arp : Option String,
      updateARPTable nodeName GetResult.otherError arp = some ARPWrite.noWrite) ∧
    (∀ got : GetResult, updateARPTable nodeName got none = some ARPWrite.noWrite) ∧
    (∀ text : String,
      updateARPTable nodeName GetResult.notFound (some text) =
        some (ARPWrite.create
          { APIVersion := "vm.rancher.com/v1alpha1", Kind := "ARPTable", Name := nodeName,
            Table := some (scanLoop [] (scanLines text)) })) ∧
    updateARPTable nodeName GetResult.notFound (some "") =
      some (ARPWrite.create
        { APIVersion := "vm.rancher.com/v1alpha1", Kind := "ARPTable", Name := nodeName,
          Table := some [] }) := by
  refine ⟨fun arp => rfl, fun got => ?_, fun text => updateARPTableLines_notFound _ _, rfl⟩
  cases got <;> rfl

theorem wrapInt64_of_range (x : Int) (h1 : -2 ^ 63 ≤ x) (h2 : x < 2 ^ 63) : wrapInt64 x = x := by
  unfold wrapInt64
  rw [Int.emod_eq_of_lt (by omega) (by omega)]
  omega

theorem wrapInt64_mul_wrap (x y : Int) : wrapInt64 (wrapInt64 x * y) = wrapInt64 (x * y) := by
  unfold wrapInt64
  have h : ((x + 2 ^ 63) % 2 ^ 64 - 2 ^ 63) * y + 2 ^ 63 =
      (x * y + 2 ^ 63) + (-((x + 2 ^ 63) / 2 ^ 64) * y) * 2 ^ 64 := by
    have := Int.emod_add_ediv (x + 2 ^ 63) (2 ^ 64)
    have h3 : (x + 2 ^ 63) % 2 ^ 64 = (x + 2 ^ 63) - 2 ^ 64 * ((x + 2 ^ 63) / 2 ^ 64) := by
      omega
    rw [h3]
    ring
  rw [h, Int.add_mul_emod_self]

/-- Claim C17: with limits active the VM container's limits are, for every VM,
`cpu` with the 64-bit value of `Spec.Cpus` and `memory` with the 64-bit value of
`Spec.MemoryMB * 1024 * 1024`, and with `UseHugePages` one more entry
`hugepages-2Mi` with the same value as `memory`; there is no other entry. When
`Spec.Cpus` is a 64-bit value and `Spec.MemoryMB` is below `2^43` in magnitude
(as every 32-bit value is) the two values are `Spec.Cpus` and
`Spec.MemoryMB * 1024 * 1024` exactly. -/
theorem resource_limits_values (g : Globals) (ctrl : VirtualMachineController)
    (vm : VirtualMachine) (iface : String) (noResourceLimits migrate : Bool)
    (rName rPort : Nat) (hlimits : ctrl.noResourceLimits = false) :
    ∃ pod c cs,
      makeVMPod g ctrl vm iface noResourceLimits migrate rName rPort = some pod ∧
      pod.Spec.Containers = c :: cs ∧
      c.Resources.Limits = some
        ([("cpu", { Value := wrapInt64 vm.Spec.Cpus, Format := BinarySI }),
          ("memory", { Value := wrapInt64 (vm.Spec.MemoryMB * 1024 * 1024),
                       Format := BinarySI })] ++
          if vm.Spec.UseHugePages then
            [("hugepages-2Mi", { Value := wrapInt64 (vm.Spec.MemoryMB * 1024 * 1024),
                                 Format := BinarySI })]
          else []) ∧
      (-2 ^ 63 ≤ vm.Spec.Cpus → vm.Spec.Cpus < 2 ^ 63 →
        -2 ^ 43 ≤ vm.Spec.MemoryMB → vm.Spec.MemoryMB < 2 ^ 43 →
        c.Resources.Limits = some
          ([("cpu", { Value := vm.Spec.Cpus, Format := BinarySI }),
            ("memory", { Value := vm.Spec.MemoryMB * 1024 * 1024, Format := BinarySI })] ++
            if vm.Spec.UseHugePages then
              [("hugepages-2Mi", { Value := vm.Spec.MemoryMB * 1024 * 1024,
                                   Format := BinarySI })]
            else [])) := by
  have hw : wrapInt64 (wrapInt64 (wrapInt64 vm.Spec.MemoryMB * 1024) * 1024) =
      wrapInt64 (vm.Spec.MemoryMB * 1024 * 1024) := by
    rw [wrapInt64_mul_wrap, mul_assoc, wrapInt64_mul_wrap, ← mul_assoc]
  have hex : -2 ^ 63 ≤ vm.Spec.Cpus → vm.Spec.Cpus < 2 ^ 63 →
      -2 ^ 43 ≤ vm.Spec.MemoryMB → vm.Spec.MemoryMB < 2 ^ 43 →
      wrapInt64 vm.Spec.Cpus = vm.Spec.Cpus ∧
        wrapInt64 (vm.Spec.MemoryMB * 1024 * 1024) = vm.Spec.MemoryMB * 1024 * 1024 := by
    intro h1 h2 h3 h4
    exact ⟨wrapInt64_of_range _ h1 h2, wrapInt64_of_range _ (by omega) (by omega)⟩
  have main : ∃ pod c cs,
      makeVMPod g ctrl vm iface noResourceLimits migrate rName rPort = some pod ∧
      pod.Spec.Containers = c :: cs ∧
      c.Resources.Limits = some
        ([("cpu", { Value := wrapInt64 vm.Spec.Cpus, Format := BinarySI }),
          ("memory", { Value := wrapInt64 (vm.Spec.MemoryMB * 1024 * 1024),
                       Format := BinarySI })] ++
          if vm.Spec.UseHugePages then
            [("hugepages-2Mi", { Value := wrapInt64 (vm.Spec.MemoryMB * 1024 * 1024),
                                 Format := BinarySI })]
          else []) := by
    unfold makeVMPod
    by_cases hn : vm.Spec.NodeName = "" <;> cases migrate <;>
      cases hh : vm.Spec.UseHugePages <;>
      simp [addMachineAntiAffinity, addResourceRequirements, addPublicKeys, addMigratePort,
        addNodeAffinity, updateContainer0, hn, hlimits, hh, bind, Option.bind, GoMap.set,
        GoMap.get, ResourceCPU, ResourceMemory, ResourceHugePagesPrefix, hw]
  obtain ⟨pod, c, cs, h1, h2, h3⟩ := main
  refine ⟨pod, c, cs, h1, h2, h3, ?_⟩
  intro k1 k2 k3 k4
  rw [h3, (hex k1 k2 k3 k4).1, (hex k1 k2 k3 k4).2]

/-- Claim C17 on the sample VM: 2 cores and 1024 MB with huge pages give the
limits 2, 1073741824 and 1073741824. -/
theorem resource_limits_values_witness :
    ∃ pod c cs,
      makeVMPod sampleGlobals sampleController sampleVM "br0" true false 7 9 = some pod ∧
      pod.Spec.Containers = c :: cs ∧
      c.Resources.Limits = some
        [("cpu", { Value := 2, Format := "BinarySI" }),
         ("memory", { Value := 1073741824, Format := "BinarySI" }),
         ("hugepages-2Mi", { Value := 1073741824, Format := "BinarySI" })] :=
  (resource_limits_values sampleGlobals sampleController sampleVM "br0" true false 7 9 rfl).elim
    (fun pod h => h.elim (fun c h2 => h2.elim (fun cs h3 =>
      ⟨pod, c, cs, h3.1, h3.2.1,
        (h3.2.2.2 (by decide) (by decide) (by decide) (by decide)).trans (by decide)⟩)))

theorem copy_set_send (heap : VMHeap) (p : Nat) (vm : VirtualMachine) (ip : String)
    (hp : heap[p]? = some vm) :
    deepCopyAt heap p = some (heap ++ [vm], heap.length) ∧
      setStatusIPAt (heap ++ [vm]) heap.length ip =
        some (heap ++ [{ vm with Status := { vm.Status with IP := ip } }]) ∧
      updateVMStatusAt (heap ++ [{ vm with Status := { vm.Status with IP := ip } }]) p
          heap.length =
        some (updateVMStatus vm { vm with Status := { vm.Status with IP := ip } }) := by
  have hlt : p < heap.length := by
    rcases Nat.lt_or_ge p heap.length with h | h
    · exact h
    · rw [List.getElem?_eq_none h] at hp
      exact Option.noConfusion hp
  refine ⟨by simp [deepCopyAt, hp], ?_, ?_⟩
  · simp [setStatusIPAt]
  · have h1 : (heap ++ [{ vm with Status := { vm.Status with IP := ip } }])[p]? = some vm := by
      rw [List.getElem?_append_left hlt, hp]
    have h2 : (heap ++ [{ vm with Status := { vm.Status with IP := ip } }])[heap.length]? =
        some { vm with Status := { vm.Status with IP := ip } } := by
      simp
    simp [updateVMStatusAt, h1, h2, updateVMStatus]

theorem filterMap_heap_append (heap ext : VMHeap) (ps : List Nat)
    (h : ∀ p ∈ ps, p < heap.length) :
    ps.filterMap (fun p => (heap ++ ext)[p]?) = ps.filterMap (fun p => heap[p]?) := by
  induction ps with
  | nil => rfl
  | cons p ps ih =>
    have hp := h p (List.mem_cons_self _ _)
    simp only [List.filterMap_cons, List.getElem?_append_left hp]
    rw [ih (fun q hq => h q (List.mem_cons_of_mem _ hq))]

theorem updateVMsAt_spec (arpMap : GoMap ARPEntry) (ps : List Nat) :
    ∀ heap : VMHeap, (∀ p ∈ ps, p < heap.length) →
      ∃ ext, updateVMsAt arpMap heap ps =
        some (heap ++ ext, updateVMsLoop arpMap (ps.filterMap (fun p => heap[p]?))) := by
  induction ps with
  | nil => intro heap _; exact ⟨[], by simp [updateVMsAt, updateVMsLoop]⟩
  | cons p ps ih =>
    intro heap h
    have hp := h p (List.mem_cons_self _ _)
    have hps : ∀ q ∈ ps, q < heap.length := fun q hq => h q (List.mem_cons_of_mem _ hq)
    have hget : heap[p]? = some heap[p] := List.getElem?_eq_getElem hp
    generalize heap[p] = vm at hget
    have same : ∃ ext, updateVMsAt arpMap heap ps =
        some (heap ++ ext, updateVMsLoop arpMap (ps.filterMap (fun p => heap[p]?))) :=
      ih heap hps
    have changed : ∀ ip : String, ∃ ext,
        (match deepCopyAt heap p with
          | none => none
          | some (heap, vm2) =>
            match setStatusIPAt heap vm2 ip with
            | none => none
            | some heap =>
              match updateVMStatusAt heap p vm2 with
              | none => none
              | some sent =>
                match updateVMsAt arpMap heap ps with
                | none => none
                | some (heap, rest) => some (heap, sent ++ rest)) =
          some (heap ++ ext,
            updateVMStatus vm { vm with Status := { vm.Status with IP := ip } } ++
              updateVMsLoop arpMap (ps.filterMap (fun p => heap[p]?))) := by
      intro ip
      obtain ⟨c1, c2, c3⟩ := copy_set_send heap p vm ip hget
      obtain ⟨ext, hext⟩ := ih (heap ++ [{ vm with Status := { vm.Status with IP := ip } }])
        (fun q hq => by
          have := hps q hq
          simp only [List.length_append, List.length_singleton]
          omega)
      rw [filterMap_heap_append _ _ _ hps] at hext
      refine ⟨[{ vm with Status := { vm.Status with IP := ip } }] ++ ext, ?_⟩
      simp only [c1, c2, c3, hext, List.append_assoc]
    simp only [List.filterMap_cons, hget]
    rw [updateVMsLoop, updateVMsAt]
    simp only [hget]
    by_cases hmac : vm.Status.MAC = ""
    · simp only [hmac, if_true]
      exact same
    · simp only [hmac, if_false]
      by_cases hip : vm.Status.IP = ""
      · simp only [hip, if_true]
        cases hentry : arpMap.get vm.Status.MAC with
        | none => exact same
        | some entry => exact changed entry.IP
      · simp only [hip, if_false]
        cases hentry : arpMap.get vm.Status.MAC with
        | none => exact same
        | some entry =>
          by_cases hne : entry.IP = vm.Status.IP
          · simp only [hne, ne_eq, not_true_eq_false, if_false]
            exact same
          · simp only [hne, ne_eq, not_false_eq_true, if_true]
            exact changed entry.IP

/-- Claim C18: every object `updateVMs` submits as a write has the name, the
spec, the status MAC and the status ID of a cached VM it was derived from, so it
differs from that VM at most in the status IP; and in the pass over pointers to
the cached objects every cached object is unchanged afterwards (the memory after
the pass is the memory before it followed by the copies), while the writes are
those of `updateVMs` on the objects pointed to. -/
theorem updateVMs_writes_copies (arpTable : ARPTable) :
    (∀ (vms ws : List VirtualMachine), updateVMs (some vms) arpTable = some ws →
      ∀ w ∈ ws, ∃ vm ∈ vms,
        w.Name = vm.Name ∧ w.Spec = vm.Spec ∧ w.Status.MAC = vm.Status.MAC ∧
        w.Status.ID = vm.Status.ID ∧
        w = { vm with Status := { vm.Status with IP := w.Status.IP } }) ∧
    (∀ (heap : VMHeap) (ptrs : List Nat), (∀ p ∈ ptrs, p < heap.length) →
      ∃ heap2 ws,
        updateVMsAt arpTable.arpMap heap ptrs = some (heap2, ws) ∧
        (∀ p, p < heap.length → heap2[p]? = heap[p]?) ∧
        updateVMs (some (ptrs.filterMap (fun p => heap[p]?))) arpTable = some ws) := by
  constructor
  · intro vms ws h w hw
    have hws : ws = updateVMsLoop arpTable.arpMap vms := by
      simp only [updateVMs, Option.some.injEq] at h
      exact h.symm
    subst hws
    obtain ⟨vm, hvm, hwr⟩ := (mem_updateVMsLoop _ _ _).1 hw
    obtain ⟨_, entry, _, _, rfl⟩ := writeOf_spec _ _ _ hwr
    exact ⟨vm, hvm, rfl, rfl, rfl, rfl, rfl⟩
  · intro heap ptrs hp
    obtain ⟨ext, hext⟩ := updateVMsAt_spec arpTable.arpMap ptrs heap hp
    refine ⟨heap ++ ext, _, hext, ?_, rfl⟩
    intro p hlt
    exact List.getElem?_append_left hlt

/-- Claim C18 on the sample values: the pass over pointers to the VM without a
MAC and to the sample VM leaves both objects in place, allocates the copy with
the IP and submits it. -/
theorem updateVMs_writes_copies_witness :
    ∃ heap2 ws,
      updateVMsAt sampleARPTable.arpMap [sampleVMNoMAC, sampleVM] [0, 1] = some (heap2, ws) ∧
      heap2[0]? = some sampleVMNoMAC ∧ heap2[1]? = some sampleVM ∧
      updateVMs (some [sampleVMNoMAC, sampleVM]) sampleARPTable = some ws ∧
      ws = [{ sampleVM with Status := { sampleVM.Status with IP := "10.42.0.5" } }] :=
  ((updateVMs_writes_copies sampleARPTable).2 [sampleVMNoMAC, sampleVM] [0, 1]
    (by decide)).elim (fun heap2 h => h.elim (fun ws h2 =>
      ⟨heap2, ws, h2.1, h2.2.1 0 (by decide), h2.2.1 1 (by decide), h2.2.2,
        Option.some.inj (h2.2.2.symm.trans (by decide))⟩))

theorem iface_name_ne (s : String) : "PUBLIC_KEY_" ++ s ≠ "IFACE" := by
  intro h
  have h2 := congrArg String.data h
  rw [String.data_append] at h2
  have h3 := congrArg List.head? h2
  simp at h3

theorem filter_iface_publicKeyVars (i : Nat) (keys : List Credential) :
    (publicKeyVars i keys).filter (fun e => decide (e.Name = "IFACE")) = [] := by
  induction keys generalizing i with
  | nil => rfl
  | cons k ks ih =>
    simp [publicKeyVars, MakeEnvVar, iface_name_ne, ih]

/-- Claim C20: the descriptor built by `makeVMPod` does not depend on its
`iface` and `noResourceLimits` arguments: two calls that differ only in them
return equal descriptors. The one `IFACE` variable of the VM container carries
the controller's `bridgeIface`, and the container has limits exactly when the
controller's `noResourceLimits` field is false. -/
theorem makeVMPod_ignores_arguments (g : Globals) (ctrl : VirtualMachineController)
    (vm : VirtualMachine) (iface iface2 : String) (noResourceLimits noResourceLimits2 : Bool)
    (migrate : Bool) (rName rPort : Nat) :
    makeVMPod g ctrl vm iface noResourceLimits migrate rName rPort =
        makeVMPod g ctrl vm iface2 noResourceLimits2 migrate rName rPort ∧
      ∃ pod c cs,
        makeVMPod g ctrl vm iface noResourceLimits migrate rName rPort = some pod ∧
        pod.Spec.Containers = c :: cs ∧
        c.Env.filter (fun e => decide (e.Name = "IFACE")) =
          [MakeEnvVar "IFACE" ctrl.bridgeIface none] ∧
        c.Resources.Limits.isSome = !ctrl.noResourceLimits := by
  refine ⟨rfl, ?_⟩
  unfold makeVMPod
  by_cases hn : vm.Spec.NodeName = "" <;> cases migrate <;>
    cases hl : ctrl.noResourceLimits <;>
    simp [addMachineAntiAffinity, addResourceRequirements, addPublicKeys, addMigratePort,
      addNodeAffinity, updateContainer0, hn, hl, bind, Option.bind, MakeEnvVar,
      MakeEnvVarFieldPath, filter_iface_publicKeyVars]

/-- Claim C21: for every VM, every outcome of the credential and setting
lookups and both values of the migrate flag, `makeVMPod` and
`createLonghornMachinePod` return a descriptor: no policy step fails. The steps
that index container 0 succeed on every pod with a container, the port step
also needs the annotations map and the node-affinity step the affinity block,
which the anti-affinity step always sets; without them these two steps fail. -/
theorem builders_complete (g : Globals) (ctrl : VirtualMachineController)
    (vm : VirtualMachine) (iface : String) (noResourceLimits migrate : Bool)
    (rName rPort : Nat) :
    (∃ pod c cs annotations affinity,
      makeVMPod g ctrl vm iface noResourceLimits migrate rName rPort = some pod ∧
      pod.Spec.Containers = c :: cs ∧ pod.Annotations = some annotations ∧
      pod.Spec.Affinity = some affinity) ∧
    (∃ pod c cs annotations affinity,
      createLonghornMachinePod g ctrl vm migrate rName rPort = some pod ∧
      pod.Spec.Containers = c :: cs ∧ pod.Annotations = some annotations ∧
      pod.Spec.Affinity = some affinity) ∧
    (∀ (pod : Pod) (c : Container) (cs : List Container) (annotations : GoMap String),
      pod.Spec.Containers = c :: cs → pod.Annotations = some annotations →
      (addMachineAntiAffinity g pod vm).Spec.Affinity ≠ none ∧
      (addMachineAntiAffinity g pod vm).Spec.Containers = c :: cs ∧
      (addMachineAntiAffinity g pod vm).Annotations = some annotations ∧
      (addResourceRequirements ctrl pod vm).isSome = true ∧
      (addPublicKeys ctrl pod vm).isSome = true ∧
      (addMigratePort pod rPort).isSome = true ∧
      (addNodeAffinity g (addMachineAntiAffinity g pod vm) vm).isSome = true) ∧
    (∀ pod : Pod, pod.Spec.Containers = [] →
      addPublicKeys ctrl pod vm = none ∧ addMigratePort pod rPort = none ∧
      (ctrl.noResourceLimits = false → addResourceRequirements ctrl pod vm = none)) ∧
    (∀ pod : Pod, pod.Annotations = none → addMigratePort pod rPort = none) ∧
    (∀ pod : Pod, pod.Spec.Affinity = none → vm.Spec.NodeName ≠ "" →
      addNodeAffinity g pod vm = none) := by
  refine ⟨?_, ?_, ?_, ?_, ?_, ?_⟩
  · unfold makeVMPod
    by_cases hn : vm.Spec.NodeName = "" <;> cases migrate <;>
      cases hl : ctrl.noResourceLimits <;>
      simp [addMachineAntiAffinity, addResourceRequirements, addPublicKeys, addMigratePort,
        addNodeAffinity, updateContainer0, hn, hl, bind, Option.bind]
  · unfold createLonghornMachinePod
    by_cases hn : vm.Spec.NodeName = "" <;> cases migrate <;>
      cases hl : ctrl.noResourceLimits <;>
      simp [addMachineAntiAffinity, addResourceRequirements, addPublicKeys, addMigratePort,
        addNodeAffinity, updateContainer0, hn, hl, bind, Option.bind]
  · intro pod c cs annotations hc ha
    by_cases hn : vm.Spec.NodeName = "" <;> cases hl : ctrl.noResourceLimits <;>
      simp [addMachineAntiAffinity, addResourceRequirements, addPublicKeys, addMigratePort,
        addNodeAffinity, updateContainer0, hn, hl, hc, ha]
  · intro pod hc
    refine ⟨by simp [addPublicKeys, updateContainer0, hc],
      by simp [addMigratePort, updateContainer0, hc], ?_⟩
    intro hl
    simp [addResourceRequirements, updateContainer0, hc, hl]
  · intro pod ha
    unfold addMigratePort updateContainer0
    cases hc : pod.Spec.Containers <;> simp [ha]
  · intro pod ha hn
    simp [addNodeAffinity, hn, ha]

/-- Claim C21 on the sample values: on the console descriptor, which has a
container and no annotations, the credential step succeeds and the port step
fails; the builders themselves return a descriptor for the pinned sample VM in
migration mode. -/
theorem builders_complete_witness :
    (addPublicKeys sampleController
        (makeNovncPod sampleGlobals sampleController sampleVM "vm1-00000007") sampleVM).isSome =
        true ∧
      addMigratePort (makeNovncPod sampleGlobals sampleController sampleVM "vm1-00000007") 9 =
        none ∧
      (makeVMPod sampleGlobals sampleController sampleVM "br0" false true 7 9).isSome = true ∧
      (createLonghornMachinePod sampleGlobals sampleController sampleVM true 7 9).isSome =
        true :=
  have h := builders_complete sampleGlobals sampleController sampleVM "br0" false true 7 9
  ⟨by decide,
    h.2.2.2.2.1 (makeNovncPod sampleGlobals sampleController sampleVM "vm1-00000007") rfl,
    h.1.elim (fun pod hp => hp.elim (fun c hc => hc.elim (fun cs hcs => hcs.elim
      (fun a ha => ha.elim (fun aff haff => by rw [haff.1]; rfl))))),
    h.2.1.elim (fun pod hp => hp.elim (fun c hc => hc.elim (fun cs hcs => hcs.elim
      (fun a ha => ha.elim (fun aff haff => by rw [haff.1]; rfl)))))⟩

theorem IsPodUnschedulable_skip (pre rest : List PodCondition)
    (h : ∀ x ∈ pre, ¬ (x.CondType = PodScheduled ∧ x.Status = ConditionFalse)) :
    IsPodUnschedulable (pre ++ rest) = IsPodUnschedulable rest := by
  induction pre with
  | nil => rfl
  | cons x pre ih =>
    have hx := h x (List.mem_cons_self _ _)
    simp only [List.cons_append, IsPodUnschedulable, hx, if_false]
    exact ih (fun y hy => h y (List.mem_cons_of_mem _ hy))

theorem exists_first_unscheduled (conditions : List PodCondition) :
    (∀ x ∈ conditions, ¬ (x.CondType = PodScheduled ∧ x.Status = ConditionFalse)) ∨
      ∃ pre c post, conditions = pre ++ c :: post ∧
        (∀ x ∈ pre, ¬ (x.CondType = PodScheduled ∧ x.Status = ConditionFalse)) ∧
        c.CondType = PodScheduled ∧ c.Status = ConditionFalse := by
  induction conditions with
  | nil => exact Or.inl (by simp)
  | cons x xs ih =>
    by_cases hx : x.CondType = PodScheduled ∧ x.Status = ConditionFalse
    · exact Or.inr ⟨[], x, xs, rfl, by simp, hx.1, hx.2⟩
    · rcases ih with h | ⟨pre, c, post, rfl, hpre, hc1, hc2⟩
      · left
        intro y hy
        rcases List.mem_cons.1 hy with rfl | h2
        · exact hx
        · exact h y h2
      · right
        refine ⟨x :: pre, c, post, rfl, ?_, hc1, hc2⟩
        intro y hy
        rcases List.mem_cons.1 hy with rfl | h2
        · exact hx
        · exact hpre y h2

/-- Claim C22: `IsPodUnschedulable` returns true if and only if the pod has a
condition of type PodScheduled with status False and the first such condition
in list order has the reason Unschedulable; the conditions after the first
such one do not matter, and a pod with no such condition yields false. -/
theorem IsPodUnschedulable_iff (conditions : List PodCondition) :
    (IsPodUnschedulable conditions = true ↔
      ∃ pre c post, conditions = pre ++ c :: post ∧
        (∀ x ∈ pre, ¬ (x.CondType = PodScheduled ∧ x.Status = ConditionFalse)) ∧
        c.CondType = PodScheduled ∧ c.Status = ConditionFalse ∧
        c.Reason = PodReasonUnschedulable) ∧
    (∀ pre c post post2, conditions = pre ++ c :: post →
      (∀ x ∈ pre, ¬ (x.CondType = PodScheduled ∧ x.Status = ConditionFalse)) →
      c.CondType = PodScheduled → c.Status = ConditionFalse →
      IsPodUnschedulable conditions = decide (c.Reason = PodReasonUnschedulable) ∧
      IsPodUnschedulable (pre ++ c :: post2) = IsPodUnschedulable conditions) ∧
    ((∀ x ∈ conditions, ¬ (x.CondType = PodScheduled ∧ x.Status = ConditionFalse)) →
      IsPodUnschedulable conditions = false) := by
  have first : ∀ (pre : List PodCondition) (c : PodCondition) (post : List PodCondition),
      (∀ x ∈ pre, ¬ (x.CondType = PodScheduled ∧ x.Status = ConditionFalse)) →
      c.CondType = PodScheduled → c.Status = ConditionFalse →
      IsPodUnschedulable (pre ++ c :: post) = decide (c.Reason = PodReasonUnschedulable) := by
    intro pre c post hpre h1 h2
    rw [IsPodUnschedulable_skip pre _ hpre]
    simp [IsPodUnschedulable, h1, h2]
  have none : (∀ x ∈ conditions, ¬ (x.CondType = PodScheduled ∧ x.Status = ConditionFalse)) →
      IsPodUnschedulable conditions = false := by
    intro h
    have := IsPodUnschedulable_skip conditions [] h
    simpa [IsPodUnschedulable] using this
  refine ⟨?_, ?_, none⟩
  · constructor
    · intro h
      rcases exists_first_unscheduled conditions with h0 | ⟨pre, c, post, hc, hpre, h1, h2⟩
      · rw [none h0] at h
        exact Bool.noConfusion h
      · refine ⟨pre, c, post, hc, hpre, h1, h2, ?_⟩
        rw [hc, first pre c post hpre h1 h2] at h
        simpa using h
    · rintro ⟨pre, c, post, rfl, hpre, h1, h2, h3⟩
      rw [first pre c post hpre h1 h2]
      simpa using h3
  · intro pre c post post2 hc hpre h1 h2
    subst hc
    rw [first pre c post hpre h1 h2, first pre c post2 hpre h1 h2]
    exact ⟨rfl, rfl⟩

/-- Claim C22 on sample conditions: a pod whose first unscheduled condition has
another reason is not unschedulable although a later one has the reason
Unschedulable, and a pod that was scheduled is not unschedulable. -/
theorem IsPodUnschedulable_iff_witness :
    IsPodUnschedulable
        [⟨"Initialized", "True", ""⟩, ⟨"PodScheduled", "False", "SchedulerError"⟩,
          ⟨"PodScheduled", "False", "Unschedulable"⟩] = false ∧
      IsPodUnschedulable [⟨"Initialized", "True", ""⟩, ⟨"PodScheduled", "True", ""⟩] = false ∧
      IsPodUnschedulable
        [⟨"Initialized", "True", ""⟩, ⟨"PodScheduled", "False", "Unschedulable"⟩] = true :=
  ⟨((IsPodUnschedulable_iff
        [⟨"Initialized", "True", ""⟩, ⟨"PodScheduled", "False", "SchedulerError"⟩,
          ⟨"PodScheduled", "False", "Unschedulable"⟩]).2.1
      [⟨"Initialized", "True", ""⟩] ⟨"PodScheduled", "False", "SchedulerError"⟩
      [⟨"PodScheduled", "False", "Unschedulable"⟩] [] rfl (by decide) rfl rfl).1,
    (IsPodUnschedulable_iff [⟨"Initialized", "True", ""⟩, ⟨"PodScheduled", "True", ""⟩]).2.2
      (by decide),
    (IsPodUnschedulable_iff
        [⟨"Initialized", "True", ""⟩, ⟨"PodScheduled", "False", "Unschedulable"⟩]).1.2
      ⟨[⟨"Initialized", "True", ""⟩], ⟨"PodScheduled", "False", "Unschedulable"⟩, [], rfl,
        by decide, rfl, rfl, rfl⟩⟩

end RancherVM
